import Mathlib

/-!
# Verification of the cart-mutation and inventory-settlement core

Shallow embedding of the GraphQL resolver logic of
`src/routes/graphql.js` together with the data model of
`src/models/{Cart,CartItem,Product}.js`.

Identities (Mongo ObjectIds) are modelled as natural numbers; each of the
three collections is an association list from id to record, and a `nextId`
counter models Mongo's fresh-id generation (`new CartItem(...)` etc.).
Monetary amounts ("decimal text" per the data model) are modelled as exact
integers in minor units; `qty` and `inventory_count` are JS numbers used as
integers, modelled as `Int`.

Operations return their GraphQL result (or the thrown error) *together with*
the resulting store state, because a failing operation leaves already-applied
partial writes in place (there is no rollback in the source).
-/

namespace Shopify

/-- `src/models/Product.js`: title, price, inventory_count. -/
structure Product where
  title : String
  price : Int
  inventory_count : Int
deriving DecidableEq

/-- `src/models/CartItem.js`: product_id, cart_id, qty, total. -/
structure CartItem where
  product_id : Nat
  cart_id : Nat
  qty : Int
  total : Int
deriving DecidableEq

/-- `src/models/Cart.js` (in `src/unnamed/part_000`): items, total, completed. -/
structure Cart where
  items : List Nat
  total : Int
  completed : Bool
deriving DecidableEq

/-- The `CartObject` GraphQL type returned by the cart operations. -/
structure CartObject where
  id : Nat
  items : List Nat
  total : Int
  completed : Bool
deriving DecidableEq

/-- Error taxonomy of §7: each thrown `Error` of `graphql.js`, by message. -/
inductive Err where
  | InvalidQuantity
  | CartNotFound
  | ProductNotFound
  | ItemNotInCart
  | CartAlreadyCompleted
  | InsufficientInventory
  | DanglingCartItem
  | StoreFailure
deriving DecidableEq

deriving instance DecidableEq for Except

/-- The Record Store: the three Mongo collections plus a fresh-id counter. -/
structure State where
  products : List (Nat × Product)
  carts : List (Nat × Cart)
  cartItems : List (Nat × CartItem)
  nextId : Nat
deriving DecidableEq

/-- Modelled from the spec: the Decimal Accumulator `addToTotal` lives in
`lib/lib.js`, which is not among the provided source files.  Per §4.1 it
parses the decimal-text `base`, adds the (possibly negative) `delta`
exactly — "no rounding beyond fixed-point addition", "must not lose
precision" — and renders the result as decimal text.  With decimal text
modelled as an exact integer in minor units, it is exact addition. -/
def addToTotal (base delta : Int) : Int := base + delta

/-- Mongoose `save()` on a document fetched from a collection: replace the
record stored under that id, in place (a no-op when the id is absent). -/
def updateA {α : Type} (l : List (Nat × α)) (k : Nat) (v : α) : List (Nat × α) :=
  l.map (fun p => if p.1 = k then (k, v) else p)

/-- `CartItem.find({ product_id, cart_id })`: all line items of the pair,
in collection order. -/
def findCartItems (st : State) (product_id cart_id : Nat) : List (Nat × CartItem) :=
  st.cartItems.filter (fun p => p.2.product_id == product_id && p.2.cart_id == cart_id)

/-- The index-search loop of `removeProductFromCart` (lines 247-253):
`index` starts at `-1` and is overwritten by every position whose id
matches, so it ends as the last matching index, or `-1` if none match. -/
def lastMatchIndexAux (target : Nat) : List Nat → Int → Int → Int
  | [], _, acc => acc
  | x :: rest, i, acc => lastMatchIndexAux target rest (i + 1) (if x = target then i else acc)

def lastMatchIndex (items : List Nat) (target : Nat) : Int :=
  lastMatchIndexAux target items 0 (-1)

/-- `cart.items.splice(index, 1)` for the indices the source can produce
(`-1`, or a valid position): JS clamps a negative start to
`length - 1` and removes one element there. -/
def spliceOne (items : List Nat) (i : Int) : List Nat :=
  let s : Nat := if i < 0 then items.length - 1 else i.toNat
  items.take s ++ items.drop (s + 1)

/-- `getCart` (graphql.js lines 54-71).  Note line 68: the returned
`completed` field is the literal `false`, not `cart.completed`. -/
def getCart (st : State) (cart_id : Nat) : Except Err CartObject :=
  match List.lookup cart_id st.carts with
  | none => .error .CartNotFound
  | some cart =>
      .ok { id := cart_id, items := cart.items, total := cart.total, completed := false }

/-- `createCart` (lines 161-174): a fresh cart with no items, total 0,
not completed. -/
def createCart (st : State) : CartObject × State :=
  ({ id := st.nextId, items := [], total := 0, completed := false },
   { st with
       carts := st.carts ++ [(st.nextId, { items := [], total := 0, completed := false })],
       nextId := st.nextId + 1 })

/-- `addProductToCart` (lines 296-367). -/
def addProductToCart (st : State) (product_id cart_id : Nat) (qty : Int) :
    Except Err CartObject × State :=
  if qty ≤ 0 then (.error .InvalidQuantity, st) else
  match List.lookup cart_id st.carts with
  | none => (.error .CartNotFound, st)
  | some cart =>
  match List.lookup product_id st.products with
  | none => (.error .ProductNotFound, st)
  | some product =>
  match findCartItems st product_id cart_id with
  | (iid, it) :: _ =>
      -- line item exists: increment its qty, accumulate its total and the cart total
      (.ok { id := cart_id, items := cart.items,
             total := addToTotal cart.total (product.price * qty),
             completed := cart.completed },
       { st with
           cartItems := updateA st.cartItems iid
             { it with qty := it.qty + qty, total := addToTotal it.total (product.price * qty) }
           carts := updateA st.carts cart_id
             { cart with total := addToTotal cart.total (product.price * qty) } })
  | [] =>
      -- no line item: create one (fresh id), attach it, update the cart total
      (.ok { id := cart_id, items := cart.items ++ [st.nextId],
             total := addToTotal cart.total (product.price * qty),
             completed := cart.completed },
       { st with
           cartItems := st.cartItems ++
             [(st.nextId, { product_id := product_id, cart_id := cart_id, qty := qty,
                            total := addToTotal 0 (product.price * qty) })]
           carts := updateA st.carts cart_id
             { cart with items := cart.items ++ [st.nextId],
                         total := addToTotal cart.total (product.price * qty) }
           nextId := st.nextId + 1 })

/-- `removeProductFromCart` (lines 209-285).  The decremented quantity
`it0.qty - qty` is the JS `cart_item.qty -= qty`; in the deletion branch the
cart-total delta `-1 * (qty + (it0.qty - qty)) * price` is the JS
`-1 * (qty + cart_item.qty) * price` computed after that decrement. -/
def removeProductFromCart (st : State) (product_id cart_id : Nat) (qty : Int) :
    Except Err CartObject × State :=
  if qty ≤ 0 then (.error .InvalidQuantity, st) else
  match List.lookup cart_id st.carts with
  | none => (.error .CartNotFound, st)
  | some cart =>
  match findCartItems st product_id cart_id with
  | [] => (.error .ItemNotInCart, st)
  | (iid, it0) :: _ =>
  match List.lookup it0.product_id st.products with
  | none => (.error .StoreFailure, st)  -- populate gives null; `.price` access throws
  | some product =>
  if it0.qty - qty ≤ 0 then
    -- lines 245-257: splice the item out of the cart, adjust the cart total,
    -- delete the line-item record
    (.ok { id := cart_id, items := spliceOne cart.items (lastMatchIndex cart.items iid),
           total := addToTotal cart.total (-1 * (qty + (it0.qty - qty)) * product.price),
           completed := cart.completed },
     { st with
         cartItems := st.cartItems.filter (fun p => p.1 != iid)
         carts := updateA st.carts cart_id
           { cart with
               items := spliceOne cart.items (lastMatchIndex cart.items iid),
               total := addToTotal cart.total (-1 * (qty + (it0.qty - qty)) * product.price) } })
  else
    -- lines 259-272: persist the decremented item, adjust the cart total
    (.ok { id := cart_id, items := cart.items,
           total := addToTotal cart.total (-1 * qty * product.price),
           completed := cart.completed },
     { st with
         cartItems := updateA st.cartItems iid
           { it0 with qty := it0.qty - qty,
                      total := addToTotal it0.total (-1 * product.price * qty) }
         carts := updateA st.carts cart_id
           { cart with total := addToTotal cart.total (-1 * qty * product.price) } })

/-- The validation loop of `completeCart` (lines 392-408): resolve every
line item and its product in order, failing on a missing item, a missing
product (a TypeError on the `null.inventory_count` access), or the first
item whose qty exceeds its product's inventory.  No writes happen here. -/
def validateItems (st : State) : List Nat → Except Err (List (Nat × CartItem))
  | [] => .ok []
  | i :: rest =>
    match List.lookup i st.cartItems with
    | none => .error .DanglingCartItem
    | some it =>
      match List.lookup it.product_id st.products with
      | none => .error .StoreFailure
      | some product =>
        if product.inventory_count < it.qty then .error .InsufficientInventory
        else
          match validateItems st rest with
          | .error e => .error e
          | .ok l => .ok ((i, it) :: l)

/-- The decrement loop of `completeCart` (lines 410-422): re-resolve each
product and persist it with `inventory_count` reduced by the item's qty.
Each write is independent, so a failure leaves earlier writes in place. -/
def applyDecrements : State → List (Nat × CartItem) → Except Err Unit × State
  | st, [] => (.ok (), st)
  | st, (_, it) :: rest =>
    match List.lookup it.product_id st.products with
    | none => (.error .StoreFailure, st)
    | some prod =>
      applyDecrements
        { st with
            products := updateA st.products it.product_id
              { prod with inventory_count := prod.inventory_count - it.qty } }
        rest

/-- `completeCart` (lines 376-434). -/
def completeCart (st : State) (cart_id : Nat) : Except Err CartObject × State :=
  match List.lookup cart_id st.carts with
  | none => (.error .CartNotFound, st)
  | some cart =>
  if cart.completed then (.error .CartAlreadyCompleted, st) else
  match validateItems st cart.items with
  | .error e => (.error e, st)
  | .ok l =>
    match applyDecrements st l with
    | (.error e, st') => (.error e, st')
    | (.ok _, st') =>
      (.ok { id := cart_id, items := cart.items, total := cart.total, completed := true },
       { st' with carts := updateA st'.carts cart_id { cart with completed := true } })

/-! ## Derived notions used to state the claims -/

/-- The ids of an association list. -/
def keys {α : Type} (l : List (Nat × α)) : List Nat := l.map Prod.fst

/-- A cart-item id resolves: the item exists and so does its product. -/
def itemResolvable (st : State) (i : Nat) : Bool :=
  match List.lookup i st.cartItems with
  | none => false
  | some it => (List.lookup it.product_id st.products).isSome

/-- A cart-item id resolves and its qty exceeds its product's inventory. -/
def itemInsufficient (st : State) (i : Nat) : Bool :=
  match List.lookup i st.cartItems with
  | none => false
  | some it =>
    match List.lookup it.product_id st.products with
    | none => false
    | some p => decide (p.inventory_count < it.qty)

/-- The items of a cart's id list, each paired with its id (resolvable ones). -/
def resolveList (st : State) (items : List Nat) : List (Nat × CartItem) :=
  items.filterMap (fun i => (List.lookup i st.cartItems).map (fun it => (i, it)))

/-- The product ids referenced by a cart's (resolvable) items. -/
def resolvedPids (st : State) (items : List Nat) : List Nat :=
  items.filterMap (fun i => (List.lookup i st.cartItems).map (fun it => it.product_id))

/-- The product ids of a list of resolved cart items. -/
def pidsOf (l : List (Nat × CartItem)) : List Nat := l.map (fun x => x.2.product_id)

/-- Sum of the `total` fields of the line items an id list resolves to. -/
def itemTotalSum (l : List (Nat × CartItem)) (items : List Nat) : Int :=
  (items.map (fun i =>
    match List.lookup i l with
    | some it => it.total
    | none => 0)).sum

/-- Sum of `price × qty` over the line items an id list resolves to. -/
def itemPriceQtySum (ps : List (Nat × Product)) (l : List (Nat × CartItem)) (items : List Nat) : Int :=
  (items.map (fun i =>
    match List.lookup i l with
    | some it =>
      match List.lookup it.product_id ps with
      | some p => p.price * it.qty
      | none => 0
    | none => 0)).sum

/-- Run a sequence of `addProductToCart` calls against one cart, requiring
every one of them to succeed. -/
def applyAdds (st : State) (cart_id : Nat) : List (Nat × Int) → Option State
  | [] => some st
  | (pid, q) :: rest =>
    match addProductToCart st pid cart_id q with
    | (.ok _, st') => applyAdds st' cart_id rest
    | (.error _, _) => none

/-- Store sanity: distinct ids per collection, and the fresh-id counter
strictly above every id in use (as Mongo's ObjectId generation guarantees). -/
def StoreOK (st : State) : Prop :=
  (keys st.cartItems).Nodup ∧ (keys st.carts).Nodup
  ∧ (∀ x ∈ st.cartItems, x.1 < st.nextId)
  ∧ (∀ x ∈ st.carts, x.1 < st.nextId)
  ∧ (∀ x ∈ st.cartItems, x.2.cart_id < st.nextId)

instance : DecidablePred StoreOK := fun st => by
  unfold StoreOK; infer_instance

/-- Data-model invariant (§3): at most one live CartLineItem per
(cart, product) pair. -/
def UniquePerPair (st : State) : Prop :=
  ∀ pid cid : Nat, (findCartItems st pid cid).length ≤ 1

/-- The invariant carried through a run of AddItem operations against the
cart `cid`: store sanity plus consistency of the cart's item set — distinct
item ids, each resolving to a line item of this cart whose `total` is
`price × qty` of its product, every stored line item of this cart listed,
and the cart's `total` equal to the sum of its items' totals. -/
def WF (st : State) (cid : Nat) : Prop :=
  StoreOK st
  ∧ ∀ cart, List.lookup cid st.carts = some cart →
      cart.items.Nodup
      ∧ (∀ i ∈ cart.items, ∃ it, List.lookup i st.cartItems = some it ∧ it.cart_id = cid)
      ∧ (∀ x ∈ st.cartItems, x.2.cart_id = cid → x.1 ∈ cart.items)
      ∧ cart.total = itemTotalSum st.cartItems cart.items
      ∧ (∀ i ∈ cart.items, ∀ it, List.lookup i st.cartItems = some it →
          ∃ p, List.lookup it.product_id st.products = some p ∧ it.total = p.price * it.qty)

/-- A store with one product (price 10, inventory 5) and one already-completed
empty cart, used to exercise the mutating operations on a completed cart. -/
def completedCartState : State :=
  { products := [(1, { title := "P", price := 10, inventory_count := 5 })],
    carts := [(0, { items := [], total := 0, completed := true })],
    cartItems := [],
    nextId := 5 }

/-- A store with one product (price 10, inventory 5) and one open cart
holding a single line item of qty 3, used to exercise over-removal. -/
def overRemovalState : State :=
  { products := [(1, { title := "P", price := 10, inventory_count := 5 })],
    carts := [(0, { items := [7], total := 30, completed := false })],
    cartItems := [(7, { product_id := 1, cart_id := 0, qty := 3, total := 30 })],
    nextId := 8 }

/-- A store with two products and one open cart holding a line item of each,
used to exercise a successful completion. -/
def twoProductState : State :=
  { products := [(1, { title := "P1", price := 10, inventory_count := 5 }),
                 (2, { title := "P2", price := 20, inventory_count := 4 })],
    carts := [(0, { items := [7, 8], total := 70, completed := false })],
    cartItems := [(7, { product_id := 1, cart_id := 0, qty := 3, total := 30 }),
                  (8, { product_id := 2, cart_id := 0, qty := 2, total := 40 })],
    nextId := 9 }

/-! ## Association-list lemmas -/

theorem lookup_cons' {α : Type} (k a : Nat) (b : α) (l : List (Nat × α)) :
    List.lookup k ((a, b) :: l) = if k = a then some b else List.lookup k l := by
  by_cases h : k = a
  · subst h; simp [List.lookup]
  · have hb : (k == a) = false := by simpa using h
    simp [List.lookup, hb, h]

theorem updateA_cons {α : Type} (a : Nat) (b : α) (tl : List (Nat × α)) (k : Nat) (v : α) :
    updateA ((a, b) :: tl) k v = (if a = k then (k, v) else (a, b)) :: updateA tl k v := rfl

theorem keys_cons {α : Type} (x : Nat × α) (l : List (Nat × α)) :
    keys (x :: l) = x.1 :: keys l := rfl

theorem lookup_eq_none_of_bound {α : Type} {l : List (Nat × α)} {n k : Nat}
    (h : ∀ x ∈ l, x.1 < n) (hk : n ≤ k) : List.lookup k l = none := by
  induction l with
  | nil => rfl
  | cons hd tl ih =>
      obtain ⟨a, b⟩ := hd
      have h1 : a < n := h (a, b) (List.mem_cons_self _ _)
      rw [lookup_cons', if_neg (by omega)]
      exact ih (fun x hx => h x (List.mem_cons_of_mem _ hx))

theorem lookup_append_some {α : Type} {l : List (Nat × α)} {k : Nat} {v : α}
    (l' : List (Nat × α)) (h : List.lookup k l = some v) :
    List.lookup k (l ++ l') = some v := by
  induction l with
  | nil => exact absurd h (by simp [List.lookup])
  | cons hd tl ih =>
      obtain ⟨a, b⟩ := hd
      rw [lookup_cons'] at h
      rw [List.cons_append, lookup_cons']
      by_cases hk : k = a
      · rw [if_pos hk] at h; rw [if_pos hk]; exact h
      · rw [if_neg hk] at h; rw [if_neg hk]; exact ih h

theorem lookup_append_none {α : Type} {l : List (Nat × α)} {k : Nat}
    (l' : List (Nat × α)) (h : List.lookup k l = none) :
    List.lookup k (l ++ l') = List.lookup k l' := by
  induction l with
  | nil => simp
  | cons hd tl ih =>
      obtain ⟨a, b⟩ := hd
      rw [lookup_cons'] at h
      rw [List.cons_append, lookup_cons']
      by_cases hk : k = a
      · rw [if_pos hk] at h; exact absurd h (by simp)
      · rw [if_neg hk] at h; rw [if_neg hk]; exact ih h

theorem lookup_updateA_self {α : Type} (l : List (Nat × α)) (k : Nat) (v : α) :
    List.lookup k (updateA l k v) = (List.lookup k l).map (fun _ => v) := by
  induction l with
  | nil => rfl
  | cons hd tl ih =>
      obtain ⟨a, b⟩ := hd
      rw [updateA_cons]
      by_cases hk : a = k
      · rw [if_pos hk, lookup_cons', if_pos rfl, lookup_cons', if_pos hk.symm]
        rfl
      · have hk' : k ≠ a := fun he => hk he.symm
        rw [if_neg hk, lookup_cons', if_neg hk', lookup_cons', if_neg hk']
        exact ih

theorem lookup_updateA_ne {α : Type} (l : List (Nat × α)) {k k' : Nat} (v : α)
    (h : k' ≠ k) : List.lookup k' (updateA l k v) = List.lookup k' l := by
  induction l with
  | nil => rfl
  | cons hd tl ih =>
      obtain ⟨a, b⟩ := hd
      rw [updateA_cons]
      by_cases hk : a = k
      · rw [if_pos hk, lookup_cons', lookup_cons', if_neg h, if_neg (hk ▸ h)]
        exact ih
      · rw [if_neg hk, lookup_cons', lookup_cons']
        by_cases hk' : k' = a
        · rw [if_pos hk', if_pos hk']
        · rw [if_neg hk', if_neg hk']; exact ih

theorem keys_updateA {α : Type} (l : List (Nat × α)) (k : Nat) (v : α) :
    keys (updateA l k v) = keys l := by
  induction l with
  | nil => rfl
  | cons hd tl ih =>
      obtain ⟨a, b⟩ := hd
      rw [updateA_cons]
      by_cases hk : a = k
      · rw [if_pos hk, keys_cons, keys_cons, ih, hk]
      · rw [if_neg hk, keys_cons, keys_cons, ih]

theorem mem_of_lookup_eq_some {α : Type} {l : List (Nat × α)} {k : Nat} {v : α}
    (h : List.lookup k l = some v) : (k, v) ∈ l := by
  induction l with
  | nil => exact absurd h (by simp [List.lookup])
  | cons hd tl ih =>
      obtain ⟨a, b⟩ := hd
      rw [lookup_cons'] at h
      by_cases hk : k = a
      · rw [if_pos hk] at h
        have hv : b = v := Option.some_inj.mp h
        subst hk; subst hv
        exact List.mem_cons_self _ _
      · rw [if_neg hk] at h
        exact List.mem_cons_of_mem _ (ih h)

theorem lookup_of_mem_nodup {α : Type} {l : List (Nat × α)} {k : Nat} {v : α}
    (hk : (keys l).Nodup) (h : (k, v) ∈ l) : List.lookup k l = some v := by
  induction l with
  | nil => simp at h
  | cons hd tl ih =>
      obtain ⟨a, b⟩ := hd
      rw [keys_cons] at hk
      have hk1 : a ∉ keys tl := (List.nodup_cons.mp hk).1
      have hk2 : (keys tl).Nodup := (List.nodup_cons.mp hk).2
      rw [lookup_cons']
      rcases List.mem_cons.mp h with h1 | h1
      · injection h1 with h2 h3
        rw [if_pos h2, h3]
      · have hne : k ≠ a := by
          intro he; subst he
          exact hk1 (List.mem_map_of_mem Prod.fst h1)
        rw [if_neg hne]
        exact ih hk2 h1

theorem mem_updateA {α : Type} {l : List (Nat × α)} {k : Nat} {v : α} {x : Nat × α}
    (h : x ∈ updateA l k v) : x ∈ l ∨ x = (k, v) := by
  induction l with
  | nil => simp [updateA] at h
  | cons hd tl ih =>
      obtain ⟨a, b⟩ := hd
      rw [updateA_cons] at h
      rcases List.mem_cons.mp h with h1 | h1
      · by_cases hk : a = k
        · rw [if_pos hk] at h1; right; exact h1
        · rw [if_neg hk] at h1; left; exact h1 ▸ List.mem_cons_self _ _
      · rcases ih h1 with h2 | h2
        · left; exact List.mem_cons_of_mem _ h2
        · right; exact h2

theorem lookup_filter_ne_self {α : Type} (l : List (Nat × α)) (k : Nat) :
    List.lookup k (l.filter (fun p => p.1 != k)) = none := by
  induction l with
  | nil => rfl
  | cons hd tl ih =>
      obtain ⟨a, b⟩ := hd
      rw [List.filter_cons]
      by_cases hk : a = k
      · have hb : ((a, b).1 != k) = false := by simp [hk]
        rw [hb]
        simpa using ih
      · have hb : ((a, b).1 != k) = true := by simp [hk]
        rw [hb]
        simp only [if_pos]
        rw [lookup_cons', if_neg (fun he => hk he.symm)]
        exact ih

/-! ## Branch equations for the operations -/

theorem addProductToCart_found (st : State) {pid cid : Nat} (qty : Int)
    {cart : Cart} {prod : Product} {iid : Nat} {it : CartItem} {rest : List (Nat × CartItem)}
    (hq : 0 < qty) (hc : List.lookup cid st.carts = some cart)
    (hp : List.lookup pid st.products = some prod)
    (hfi : findCartItems st pid cid = (iid, it) :: rest) :
    addProductToCart st pid cid qty =
      (.ok { id := cid, items := cart.items,
             total := addToTotal cart.total (prod.price * qty),
             completed := cart.completed },
       { st with
           cartItems := updateA st.cartItems iid
             { it with qty := it.qty + qty, total := addToTotal it.total (prod.price * qty) }
           carts := updateA st.carts cid
             { cart with total := addToTotal cart.total (prod.price * qty) } }) := by
  unfold addProductToCart
  simp only [hc, hp, hfi, if_neg (show ¬ qty ≤ 0 by omega)]

theorem addProductToCart_new (st : State) {pid cid : Nat} (qty : Int)
    {cart : Cart} {prod : Product}
    (hq : 0 < qty) (hc : List.lookup cid st.carts = some cart)
    (hp : List.lookup pid st.products = some prod)
    (hfi : findCartItems st pid cid = []) :
    addProductToCart st pid cid qty =
      (.ok { id := cid, items := cart.items ++ [st.nextId],
             total := addToTotal cart.total (prod.price * qty),
             completed := cart.completed },
       { st with
           cartItems := st.cartItems ++
             [(st.nextId, { product_id := pid, cart_id := cid, qty := qty,
                            total := addToTotal 0 (prod.price * qty) })]
           carts := updateA st.carts cid
             { cart with items := cart.items ++ [st.nextId],
                         total := addToTotal cart.total (prod.price * qty) }
           nextId := st.nextId + 1 }) := by
  unfold addProductToCart
  simp only [hc, hp, hfi, if_neg (show ¬ qty ≤ 0 by omega)]

theorem removeProductFromCart_delete (st : State) {pid cid : Nat} (qty : Int)
    {cart : Cart} {iid : Nat} {it0 : CartItem} {rest : List (Nat × CartItem)} {prod : Product}
    (hq : 0 < qty) (hc : List.lookup cid st.carts = some cart)
    (hfi : findCartItems st pid cid = (iid, it0) :: rest)
    (hp : List.lookup it0.product_id st.products = some prod)
    (hle : it0.qty - qty ≤ 0) :
    removeProductFromCart st pid cid qty =
      (.ok { id := cid, items := spliceOne cart.items (lastMatchIndex cart.items iid),
             total := addToTotal cart.total (-1 * (qty + (it0.qty - qty)) * prod.price),
             completed := cart.completed },
       { st with
           cartItems := st.cartItems.filter (fun p => p.1 != iid)
           carts := updateA st.carts cid
             { cart with
                 items := spliceOne cart.items (lastMatchIndex cart.items iid),
                 total := addToTotal cart.total (-1 * (qty + (it0.qty - qty)) * prod.price) } }) := by
  unfold removeProductFromCart
  simp only [hc, hfi, hp, if_neg (show ¬ qty ≤ 0 by omega)]
  rw [if_pos hle]

theorem removeProductFromCart_keep (st : State) {pid cid : Nat} (qty : Int)
    {cart : Cart} {iid : Nat} {it0 : CartItem} {rest : List (Nat × CartItem)} {prod : Product}
    (hq : 0 < qty) (hc : List.lookup cid st.carts = some cart)
    (hfi : findCartItems st pid cid = (iid, it0) :: rest)
    (hp : List.lookup it0.product_id st.products = some prod)
    (hgt : ¬ it0.qty - qty ≤ 0) :
    removeProductFromCart st pid cid qty =
      (.ok { id := cid, items := cart.items,
             total := addToTotal cart.total (-1 * qty * prod.price),
             completed := cart.completed },
       { st with
           cartItems := updateA st.cartItems iid
             { it0 with qty := it0.qty - qty,
                        total := addToTotal it0.total (-1 * prod.price * qty) }
           carts := updateA st.carts cid
             { cart with total := addToTotal cart.total (-1 * qty * prod.price) } }) := by
  unfold removeProductFromCart
  simp only [hc, hfi, hp, if_neg (show ¬ qty ≤ 0 by omega)]
  rw [if_neg hgt]

theorem completeCart_notfound (st : State) {cid : Nat}
    (hc : List.lookup cid st.carts = none) :
    completeCart st cid = (.error .CartNotFound, st) := by
  unfold completeCart
  simp only [hc]

theorem completeCart_already (st : State) {cid : Nat} {cart : Cart}
    (hc : List.lookup cid st.carts = some cart) (hcc : cart.completed = true) :
    completeCart st cid = (.error .CartAlreadyCompleted, st) := by
  unfold completeCart
  simp only [hc, hcc, if_true]

theorem completeCart_decfail (st : State) {cid : Nat} {cart : Cart}
    {l : List (Nat × CartItem)} {e : Err} {st' : State}
    (hc : List.lookup cid st.carts = some cart) (hnc : cart.completed = false)
    (hval : validateItems st cart.items = .ok l)
    (hdec : applyDecrements st l = (.error e, st')) :
    completeCart st cid = (.error e, st') := by
  unfold completeCart
  simp only [hc, hnc, hval, hdec, Bool.false_eq_true, if_false]

theorem completeCart_valfail (st : State) {cid : Nat} {cart : Cart} {e : Err}
    (hc : List.lookup cid st.carts = some cart) (hnc : cart.completed = false)
    (hval : validateItems st cart.items = .error e) :
    completeCart st cid = (.error e, st) := by
  unfold completeCart
  simp only [hc, hnc, hval, Bool.false_eq_true, if_false]

theorem completeCart_commit (st st' : State) {cid : Nat} {cart : Cart}
    {l : List (Nat × CartItem)}
    (hc : List.lookup cid st.carts = some cart) (hnc : cart.completed = false)
    (hval : validateItems st cart.items = .ok l)
    (hdec : applyDecrements st l = (.ok (), st')) :
    completeCart st cid =
      (.ok { id := cid, items := cart.items, total := cart.total, completed := true },
       { st' with carts := updateA st'.carts cid { cart with completed := true } }) := by
  unfold completeCart
  simp only [hc, hnc, hval, hdec, Bool.false_eq_true, if_false]

/-- The head of a `findCartItems` result is a line item of the queried pair. -/
theorem findCartItems_head {st : State} {pid cid iid : Nat} {it : CartItem}
    {rest : List (Nat × CartItem)} (h : findCartItems st pid cid = (iid, it) :: rest) :
    it.product_id = pid ∧ it.cart_id = cid := by
  have hm : (iid, it) ∈ findCartItems st pid cid := by
    rw [h]; exact List.mem_cons_self _ _
  have hp := List.of_mem_filter hm
  simpa [Bool.and_eq_true, beq_iff_eq] using hp

/-! ## C5 — getCart and the completed flag -/

/-- C5: the claim says `getCart` returns the cart's stored completed flag
(true for a completed cart).  The code (graphql.js line 68) returns the
literal `false`: on a completed cart, `getCart` reports `completed = false`
while returning the stored id, item list and total. -/
theorem getCart_reports_false_on_completed_cart :
    getCart { products := [], carts := [(0, { items := [7], total := 25, completed := true })],
              cartItems := [(7, { product_id := 1, cart_id := 0, qty := 2, total := 25 })],
              nextId := 8 } 0
      = .ok { id := 0, items := [7], total := 25, completed := false } := by decide

/-! ## C10 — CompleteCart on an empty cart -/

/-- C10: CompleteCart on an open cart with an empty item set succeeds, returns
the empty item list and the cart's existing total, marks the cart completed,
and mutates no product and no cart item. -/
theorem completeCart_empty_items (st : State) (cid : Nat) (cart : Cart)
    (hc : List.lookup cid st.carts = some cart) (hnc : cart.completed = false)
    (he : cart.items = []) :
    (completeCart st cid).1
        = .ok { id := cid, items := [], total := cart.total, completed := true }
    ∧ (completeCart st cid).2.products = st.products
    ∧ (completeCart st cid).2.cartItems = st.cartItems
    ∧ List.lookup cid (completeCart st cid).2.carts = some { cart with completed := true } := by
  have h1 : validateItems st cart.items = .ok [] := by rw [he]; rfl
  rw [completeCart_commit st st hc hnc h1 rfl]
  refine ⟨by rw [he], rfl, rfl, ?_⟩
  show List.lookup cid (updateA st.carts cid { cart with completed := true }) = _
  rw [lookup_updateA_self, hc]
  rfl

/-- Witness for C10 at a concrete store. -/
theorem completeCart_empty_items_witness :
    (completeCart { products := [(1, ⟨"P", 10, 5⟩)], carts := [(0, ⟨[], 5, false⟩)],
                    cartItems := [], nextId := 2 } 0).1
        = .ok { id := 0, items := [], total := 5, completed := true }
    ∧ (completeCart { products := [(1, ⟨"P", 10, 5⟩)], carts := [(0, ⟨[], 5, false⟩)],
                      cartItems := [], nextId := 2 } 0).2.products
        = [(1, ⟨"P", 10, 5⟩)]
    ∧ (completeCart { products := [(1, ⟨"P", 10, 5⟩)], carts := [(0, ⟨[], 5, false⟩)],
                      cartItems := [], nextId := 2 } 0).2.cartItems
        = []
    ∧ List.lookup 0 (completeCart { products := [(1, ⟨"P", 10, 5⟩)], carts := [(0, ⟨[], 5, false⟩)],
                                    cartItems := [], nextId := 2 } 0).2.carts
        = some ⟨[], 5, true⟩ :=
  completeCart_empty_items _ 0 ⟨[], 5, false⟩ (by decide) rfl rfl

/-! ## C9 — AddItem neither checks nor changes inventory -/

/-- C9: given a positive qty, an existing cart and an existing product — with
no constraint whatsoever on the product's inventory_count — AddItem succeeds
and leaves the products collection (hence every inventory_count) unchanged. -/
theorem addItem_ignores_inventory (st : State) (pid cid : Nat) (qty : Int)
    (cart : Cart) (prod : Product)
    (hq : 0 < qty) (hc : List.lookup cid st.carts = some cart)
    (hp : List.lookup pid st.products = some prod) :
    (addProductToCart st pid cid qty).1.isOk = true
    ∧ (addProductToCart st pid cid qty).2.products = st.products := by
  cases hfi : findCartItems st pid cid with
  | nil => rw [addProductToCart_new st qty hq hc hp hfi]; exact ⟨rfl, rfl⟩
  | cons hd tl =>
      obtain ⟨iid, it⟩ := hd
      rw [addProductToCart_found st qty hq hc hp hfi]
      exact ⟨rfl, rfl⟩

/-- Witness for C9: the requested qty (100) far exceeds the inventory (0). -/
theorem addItem_ignores_inventory_witness :
    (addProductToCart { products := [(1, ⟨"P", 10, 0⟩)], carts := [(0, ⟨[], 0, false⟩)],
                        cartItems := [], nextId := 2 } 1 0 100).1.isOk = true
    ∧ (addProductToCart { products := [(1, ⟨"P", 10, 0⟩)], carts := [(0, ⟨[], 0, false⟩)],
                          cartItems := [], nextId := 2 } 1 0 100).2.products
        = [(1, ⟨"P", 10, 0⟩)] :=
  addItem_ignores_inventory _ 1 0 100 ⟨[], 0, false⟩ ⟨"P", 10, 0⟩ (by decide) (by decide) (by decide)

/-! ## C2 — completed carts and the mutating operations -/

/-- C2 counterexample: the claim says a cart with completed = true is not
changed by AddItem or RemoveItem.  On the code, `addProductToCart` on a
completed cart succeeds and changes its item set and total (and
`removeProductFromCart` then changes it again): neither operation consults
the completed flag. -/
theorem completed_cart_mutated_counterexample :
    (addProductToCart completedCartState 1 0 2).1
        = .ok { id := 0, items := [5], total := 20, completed := true }
    ∧ List.lookup 0 (addProductToCart completedCartState 1 0 2).2.carts
        = some { items := [5], total := 20, completed := true }
    ∧ (removeProductFromCart (addProductToCart completedCartState 1 0 2).2 1 0 1).1
        = .ok { id := 0, items := [5], total := 10, completed := true }
    ∧ List.lookup 0 (removeProductFromCart (addProductToCart completedCartState 1 0 2).2 1 0 1).2.carts
        = some { items := [5], total := 10, completed := true } := by decide

/-- C2 amended: AddItem and RemoveItem never consult the completed flag.  On a
completed cart, AddItem succeeds (given a positive qty and an existing
product) and writes back a cart that is still completed but whose total has
grown by price × qty; RemoveItem succeeds whenever the pair resolves to a
line item.  Only CompleteCart rejects a completed cart. -/
theorem mutations_ignore_completed_flag (st : State) (pid cid : Nat) (qty : Int)
    (cart : Cart) (prod : Product)
    (hcomp : cart.completed = true)
    (hq : 0 < qty) (hc : List.lookup cid st.carts = some cart)
    (hp : List.lookup pid st.products = some prod) :
    ((addProductToCart st pid cid qty).1.isOk = true
      ∧ (∃ cart', List.lookup cid (addProductToCart st pid cid qty).2.carts = some cart'
            ∧ cart'.completed = true
            ∧ cart'.total = cart.total + prod.price * qty))
    ∧ (∀ iid it0 rest, findCartItems st pid cid = (iid, it0) :: rest →
        (removeProductFromCart st pid cid qty).1.isOk = true) := by
  constructor
  · cases hfi : findCartItems st pid cid with
    | nil =>
        rw [addProductToCart_new st qty hq hc hp hfi]
        refine ⟨rfl, { cart with items := cart.items ++ [st.nextId], total := addToTotal cart.total (prod.price * qty) }, ?_, hcomp, rfl⟩
        show List.lookup cid (updateA st.carts cid _) = _
        rw [lookup_updateA_self, hc]
        rfl
    | cons hd tl =>
        obtain ⟨iid, it⟩ := hd
        rw [addProductToCart_found st qty hq hc hp hfi]
        refine ⟨rfl, { cart with total := addToTotal cart.total (prod.price * qty) }, ?_, hcomp, rfl⟩
        show List.lookup cid (updateA st.carts cid _) = _
        rw [lookup_updateA_self, hc]
        rfl
  · intro iid it0 rest hfi
    have hp' : List.lookup it0.product_id st.products = some prod := by
      rw [(findCartItems_head hfi).1]; exact hp
    by_cases hle : it0.qty - qty ≤ 0
    · rw [removeProductFromCart_delete st qty hq hc hfi hp' hle]; rfl
    · rw [removeProductFromCart_keep st qty hq hc hfi hp' hle]; rfl

/-- Witness for the amended C2 at a concrete completed cart. -/
theorem mutations_ignore_completed_flag_witness :
    ((addProductToCart completedCartState 1 0 2).1.isOk = true
      ∧ (∃ cart', List.lookup 0 (addProductToCart completedCartState 1 0 2).2.carts = some cart'
            ∧ cart'.completed = true
            ∧ cart'.total = 0 + 10 * 2))
    ∧ (∀ iid it0 rest, findCartItems completedCartState 1 0 = (iid, it0) :: rest →
        (removeProductFromCart completedCartState 1 0 2).1.isOk = true) :=
  mutations_ignore_completed_flag completedCartState 1 0 2 ⟨[], 0, true⟩ ⟨"P", 10, 5⟩
    rfl (by decide) (by decide) (by decide)

/-! ## C1 — CompleteCart validates before any decrement -/

/-- When every item of the list resolves and some item's qty exceeds its
product's inventory, the validation loop fails with InsufficientInventory. -/
theorem validateItems_insufficient (st : State) (items : List Nat)
    (hres : ∀ i ∈ items, itemResolvable st i = true)
    (hbad : ∃ i ∈ items, itemInsufficient st i = true) :
    validateItems st items = .error .InsufficientInventory := by
  induction items with
  | nil => obtain ⟨i, hi, _⟩ := hbad; simp at hi
  | cons j rest ih =>
      have hj := hres j (List.mem_cons_self _ _)
      cases hit : List.lookup j st.cartItems with
      | none => exact absurd (by simpa only [itemResolvable, hit] using hj) (by simp)
      | some it =>
          simp only [itemResolvable, hit] at hj
          cases hpp : List.lookup it.product_id st.products with
          | none => rw [hpp] at hj; simp at hj
          | some p =>
              simp only [validateItems, hit, hpp]
              by_cases hcmp : p.inventory_count < it.qty
              · rw [if_pos hcmp]
              · rw [if_neg hcmp]
                have hrest : ∃ i ∈ rest, itemInsufficient st i = true := by
                  obtain ⟨i, hi, hbi⟩ := hbad
                  rcases List.mem_cons.mp hi with he | he
                  · subst he
                    simp only [itemInsufficient, hit, hpp, decide_eq_true_eq] at hbi
                    exact absurd hbi hcmp
                  · exact ⟨i, he, hbi⟩
                rw [ih (fun i hi => hres i (List.mem_cons_of_mem _ hi)) hrest]

/-- C1: on an open cart whose line items all resolve, if any line item's qty
exceeds its product's inventory_count then CompleteCart fails with
InsufficientInventory and the entire store — in particular every product's
inventory_count — is left untouched. -/
theorem completeCart_insufficient_no_mutation (st : State) (cid : Nat) (cart : Cart)
    (hc : List.lookup cid st.carts = some cart) (hnc : cart.completed = false)
    (hres : ∀ i ∈ cart.items, itemResolvable st i = true)
    (hbad : ∃ i ∈ cart.items, itemInsufficient st i = true) :
    (completeCart st cid).1 = .error .InsufficientInventory
    ∧ (completeCart st cid).2 = st := by
  rw [completeCart_valfail st hc hnc (validateItems_insufficient st cart.items hres hbad)]
  exact ⟨rfl, rfl⟩

/-- Witness for C1: one line item of qty 6 against an inventory of 5. -/
theorem completeCart_insufficient_no_mutation_witness :
    (completeCart { products := [(1, ⟨"P", 10, 5⟩)], carts := [(0, ⟨[7], 60, false⟩)],
                    cartItems := [(7, ⟨1, 0, 6, 60⟩)], nextId := 8 } 0).1
        = .error .InsufficientInventory
    ∧ (completeCart { products := [(1, ⟨"P", 10, 5⟩)], carts := [(0, ⟨[7], 60, false⟩)],
                      cartItems := [(7, ⟨1, 0, 6, 60⟩)], nextId := 8 } 0).2
        = { products := [(1, ⟨"P", 10, 5⟩)], carts := [(0, ⟨[7], 60, false⟩)],
            cartItems := [(7, ⟨1, 0, 6, 60⟩)], nextId := 8 } :=
  completeCart_insufficient_no_mutation _ 0 ⟨[7], 60, false⟩ (by decide) rfl (by decide) (by decide)

/-! ## C3 — over-removal deletes the item and charges the pre-removal qty -/

/-- The index loop never updates `index` when the target id is absent. -/
theorem lastMatchIndexAux_not_mem {t : Nat} {l : List Nat} (h : t ∉ l) (i acc : Int) :
    lastMatchIndexAux t l i acc = acc := by
  induction l generalizing i acc with
  | nil => rfl
  | cons x rest ih =>
      have hx : x ≠ t := fun he => h (he ▸ List.mem_cons_self _ _)
      simp only [lastMatchIndexAux, if_neg hx]
      exact ih (fun hm => h (List.mem_cons_of_mem _ hm)) _ _

theorem lastMatchIndexAux_append {t : Nat} {l1 l2 : List Nat} (h1 : t ∉ l1) (h2 : t ∉ l2)
    (i acc : Int) : lastMatchIndexAux t (l1 ++ t :: l2) i acc = i + l1.length := by
  induction l1 generalizing i acc with
  | nil =>
      simp only [List.nil_append, lastMatchIndexAux, if_pos rfl]
      rw [lastMatchIndexAux_not_mem h2]
      simp
  | cons x rest ih =>
      have hx : x ≠ t := fun he => h1 (he ▸ List.mem_cons_self _ _)
      simp only [List.cons_append, lastMatchIndexAux, if_neg hx, List.append_eq]
      rw [ih (fun hm => h1 (List.mem_cons_of_mem _ hm)) _ _]
      simp only [List.length_cons]
      push_cast
      ring

/-- When the target occurs exactly once, the JS loop finds its position. -/
theorem lastMatchIndex_append {t : Nat} {l1 l2 : List Nat} (h1 : t ∉ l1) (h2 : t ∉ l2) :
    lastMatchIndex (l1 ++ t :: l2) t = (l1.length : Int) := by
  unfold lastMatchIndex
  rw [lastMatchIndexAux_append h1 h2]
  simp

/-- Splicing at the position of the unique occurrence removes it. -/
theorem splice_lastMatch {l1 l2 : List Nat} {t : Nat} (h1 : t ∉ l1) (h2 : t ∉ l2) :
    spliceOne (l1 ++ t :: l2) (lastMatchIndex (l1 ++ t :: l2) t) = l1 ++ l2 := by
  rw [lastMatchIndex_append h1 h2]
  unfold spliceOne
  rw [if_neg (by omega), Int.toNat_natCast]
  show List.take l1.length (l1 ++ t :: l2) ++ List.drop (l1.length + 1) (l1 ++ t :: l2)
      = l1 ++ l2
  rw [List.take_left]
  have hd : (l1 ++ t :: l2).drop (l1.length + 1) = l2 := by
    rw [List.append_cons]
    have hlen : l1.length + 1 = (l1 ++ [t]).length := by simp
    rw [hlen, List.drop_left]
  rw [hd]

theorem count_one_decomp {l : List Nat} {t : Nat} (h : l.count t = 1) :
    ∃ l1 l2, l = l1 ++ t :: l2 ∧ t ∉ l1 ∧ t ∉ l2 := by
  have hm : t ∈ l := List.count_pos_iff.mp (by omega)
  obtain ⟨l1, l2, hdec⟩ := List.append_of_mem hm
  refine ⟨l1, l2, hdec, ?_, ?_⟩
  · rw [hdec, List.count_append, List.count_cons_self] at h
    exact List.count_eq_zero.mp (by omega)
  · rw [hdec, List.count_append, List.count_cons_self] at h
    exact List.count_eq_zero.mp (by omega)

/-- C3: RemoveItem with qty at least the line item's current quantity q0
succeeds, deletes the line-item record, removes its id from the cart's item
set, and decreases the cart's total by exactly q0 × price — the pre-removal
quantity, not the requested qty. -/
theorem removeItem_over_removal (st : State) (pid cid : Nat) (qty : Int)
    (cart : Cart) (iid : Nat) (it0 : CartItem) (rest : List (Nat × CartItem)) (prod : Product)
    (hq : 0 < qty) (hc : List.lookup cid st.carts = some cart)
    (hfi : findCartItems st pid cid = (iid, it0) :: rest)
    (hp : List.lookup it0.product_id st.products = some prod)
    (hlive : 0 < it0.qty) (hge : it0.qty ≤ qty)
    (hcount : cart.items.count iid = 1) :
    (removeProductFromCart st pid cid qty).1.isOk = true
    ∧ List.lookup iid (removeProductFromCart st pid cid qty).2.cartItems = none
    ∧ ∃ cart', List.lookup cid (removeProductFromCart st pid cid qty).2.carts = some cart'
        ∧ iid ∉ cart'.items
        ∧ cart'.total = cart.total - it0.qty * prod.price := by
  have hle : it0.qty - qty ≤ 0 := by omega
  rw [removeProductFromCart_delete st qty hq hc hfi hp hle]
  obtain ⟨l1, l2, hdecomp, h1, h2⟩ := count_one_decomp hcount
  refine ⟨rfl, lookup_filter_ne_self _ _,
    { cart with
        items := spliceOne cart.items (lastMatchIndex cart.items iid)
        total := addToTotal cart.total (-1 * (qty + (it0.qty - qty)) * prod.price) },
    ?_, ?_, ?_⟩
  · show List.lookup cid (updateA st.carts cid _) = _
    rw [lookup_updateA_self, hc]
    rfl
  · show iid ∉ spliceOne cart.items (lastMatchIndex cart.items iid)
    rw [hdecomp, splice_lastMatch h1 h2]
    simp only [List.mem_append]
    rintro (hm | hm)
    · exact h1 hm
    · exact h2 hm
  · show addToTotal cart.total (-1 * (qty + (it0.qty - qty)) * prod.price)
        = cart.total - it0.qty * prod.price
    unfold addToTotal
    ring

/-- Witness for C3: a line item of qty 3 removed with qty 5 (price 10): the
cart total drops by 30 (3 × 10), not 50, and the item is gone. -/
theorem removeItem_over_removal_witness :
    (removeProductFromCart overRemovalState 1 0 5).1.isOk = true
    ∧ List.lookup 7 (removeProductFromCart overRemovalState 1 0 5).2.cartItems = none
    ∧ ∃ cart', List.lookup 0 (removeProductFromCart overRemovalState 1 0 5).2.carts = some cart'
        ∧ 7 ∉ cart'.items
        ∧ cart'.total = 30 - 3 * 10 :=
  removeItem_over_removal overRemovalState 1 0 5 ⟨[7], 30, false⟩ 7 ⟨1, 0, 3, 30⟩ [] ⟨"P", 10, 5⟩
    (by decide) (by decide) (by decide) (by decide) (by decide) (by decide) (by decide)

/-! ## C7 — at most one live line item per (cart, product) pair -/

/-- Replacing the record at a key with one of the same product and cart
leaves every `findCartItems` filter the same length. -/
theorem length_filter_pair_updateA (l : List (Nat × CartItem)) (k : Nat) (v : CartItem)
    (p c : Nat)
    (h : ∀ w, (k, w) ∈ l → v.product_id = w.product_id ∧ v.cart_id = w.cart_id) :
    ((updateA l k v).filter (fun x => x.2.product_id == p && x.2.cart_id == c)).length
      = (l.filter (fun x => x.2.product_id == p && x.2.cart_id == c)).length := by
  unfold updateA
  rw [List.filter_map]
  rw [List.length_map]
  have hcongr : l.filter ((fun x => x.2.product_id == p && x.2.cart_id == c) ∘
        (fun x => if x.1 = k then (k, v) else x))
      = l.filter (fun x => x.2.product_id == p && x.2.cart_id == c) := by
    apply List.filter_congr
    intro x hx
    by_cases hxk : x.1 = k
    · obtain ⟨h1, h2⟩ := h x.2 (by
        have : (k, x.2) = x := by rw [show x = (x.1, x.2) from rfl, hxk]
        rw [this]; exact hx)
      simp only [Function.comp_apply, if_pos hxk, h1, h2]
    · simp only [Function.comp_apply, if_neg hxk]
  rw [hcongr]

/-- The decrement loop touches only the products collection. -/
theorem applyDecrements_frame (st : State) (l : List (Nat × CartItem)) :
    (applyDecrements st l).2.cartItems = st.cartItems
    ∧ (applyDecrements st l).2.carts = st.carts
    ∧ (applyDecrements st l).2.nextId = st.nextId := by
  induction l generalizing st with
  | nil => exact ⟨rfl, rfl, rfl⟩
  | cons hd tl ih =>
      obtain ⟨j, it⟩ := hd
      cases hpp : List.lookup it.product_id st.products with
      | none => simp [applyDecrements, hpp]
      | some prod =>
          simp only [applyDecrements, hpp]
          exact ih _

/-- CompleteCart never changes the cart-items collection. -/
theorem completeCart_cartItems (st : State) (cid : Nat) :
    (completeCart st cid).2.cartItems = st.cartItems := by
  cases hc : List.lookup cid st.carts with
  | none => rw [completeCart_notfound st hc]
  | some cart =>
      cases hcc : cart.completed with
      | true => rw [completeCart_already st hc hcc]
      | false =>
          cases hval : validateItems st cart.items with
          | error e => rw [completeCart_valfail st hc hcc hval]
          | ok l =>
              have hfr := (applyDecrements_frame st l).1
              cases hdec : applyDecrements st l with
              | mk fst snd =>
                  rw [hdec] at hfr
                  cases fst with
                  | error e => rw [completeCart_decfail st hc hcc hval hdec]; exact hfr
                  | ok u =>
                      cases u
                      rw [completeCart_commit st snd hc hcc hval hdec]
                      exact hfr

/-- The possible shapes of the cart-items collection after AddItem. -/
theorem addProductToCart_cartItems_shape (st : State) (pid cid : Nat) (qty : Int) :
    (addProductToCart st pid cid qty).2.cartItems = st.cartItems
    ∨ (∃ iid it rest v, findCartItems st pid cid = (iid, it) :: rest
        ∧ v.product_id = it.product_id ∧ v.cart_id = it.cart_id
        ∧ (addProductToCart st pid cid qty).2.cartItems = updateA st.cartItems iid v)
    ∨ (∃ v : CartItem, findCartItems st pid cid = []
        ∧ v.product_id = pid ∧ v.cart_id = cid
        ∧ (addProductToCart st pid cid qty).2.cartItems = st.cartItems ++ [(st.nextId, v)]) := by
  by_cases hq : qty ≤ 0
  · left
    unfold addProductToCart
    rw [if_pos hq]
  · have hq' : 0 < qty := by omega
    cases hc : List.lookup cid st.carts with
    | none =>
        left
        unfold addProductToCart
        rw [if_neg hq]
        simp only [hc]
    | some cart =>
        cases hp : List.lookup pid st.products with
        | none =>
            left
            unfold addProductToCart
            rw [if_neg hq]
            simp only [hc, hp]
        | some prod =>
            cases hfi : findCartItems st pid cid with
            | nil =>
                right; right
                refine ⟨{ product_id := pid, cart_id := cid, qty := qty,
                          total := addToTotal 0 (prod.price * qty) }, rfl, rfl, rfl, ?_⟩
                rw [addProductToCart_new st qty hq' hc hp hfi]
            | cons hd rest =>
                obtain ⟨iid, it⟩ := hd
                right; left
                refine ⟨iid, it, rest,
                  { it with qty := it.qty + qty,
                            total := addToTotal it.total (prod.price * qty) }, rfl, rfl, rfl, ?_⟩
                rw [addProductToCart_found st qty hq' hc hp hfi]

/-- The possible shapes of the cart-items collection after RemoveItem. -/
theorem removeProductFromCart_cartItems_shape (st : State) (pid cid : Nat) (qty : Int) :
    (removeProductFromCart st pid cid qty).2.cartItems = st.cartItems
    ∨ (∃ iid : Nat, (removeProductFromCart st pid cid qty).2.cartItems
        = st.cartItems.filter (fun x => x.1 != iid))
    ∨ (∃ iid it rest v, findCartItems st pid cid = (iid, it) :: rest
        ∧ v.product_id = it.product_id ∧ v.cart_id = it.cart_id
        ∧ (removeProductFromCart st pid cid qty).2.cartItems = updateA st.cartItems iid v) := by
  by_cases hq : qty ≤ 0
  · left
    unfold removeProductFromCart
    rw [if_pos hq]
  · have hq' : 0 < qty := by omega
    cases hc : List.lookup cid st.carts with
    | none =>
        left
        unfold removeProductFromCart
        rw [if_neg hq]
        simp only [hc]
    | some cart =>
        cases hfi : findCartItems st pid cid with
        | nil =>
            left
            unfold removeProductFromCart
            rw [if_neg hq]
            simp only [hc, hfi]
        | cons hd rest =>
            obtain ⟨iid, it0⟩ := hd
            cases hp : List.lookup it0.product_id st.products with
            | none =>
                left
                unfold removeProductFromCart
                rw [if_neg hq]
                simp only [hc, hfi, hp]
            | some prod =>
                by_cases hle : it0.qty - qty ≤ 0
                · right; left
                  refine ⟨iid, ?_⟩
                  rw [removeProductFromCart_delete st qty hq' hc hfi hp hle]
                · right; right
                  refine ⟨iid, it0, rest,
                    { it0 with qty := it0.qty - qty,
                               total := addToTotal it0.total (-1 * prod.price * qty) },
                    rfl, rfl, rfl, ?_⟩
                  rw [removeProductFromCart_keep st qty hq' hc hfi hp hle]

/-- C7: each of AddItem, RemoveItem, CompleteCart and CreateCart preserves
the invariant that at most one live line item exists per (cart, product)
pair; moreover AddItem on an existing line item updates that record in place
(incrementing qty by qty and its total by price × qty, creating nothing),
and creates a line item only when the pair has none. -/
theorem operations_preserve_unique_per_pair (st : State) (pid cid : Nat) (qty : Int)
    (hu : UniquePerPair st) (hk : (keys st.cartItems).Nodup) :
    UniquePerPair (addProductToCart st pid cid qty).2
    ∧ UniquePerPair (removeProductFromCart st pid cid qty).2
    ∧ UniquePerPair (completeCart st cid).2
    ∧ UniquePerPair (createCart st).2
    ∧ (∀ cart prod iid it rest,
        0 < qty → List.lookup cid st.carts = some cart →
        List.lookup pid st.products = some prod →
        findCartItems st pid cid = (iid, it) :: rest →
        keys (addProductToCart st pid cid qty).2.cartItems = keys st.cartItems
        ∧ List.lookup iid (addProductToCart st pid cid qty).2.cartItems
            = some { it with qty := it.qty + qty, total := addToTotal it.total (prod.price * qty) })
    ∧ (∀ cart prod,
        0 < qty → List.lookup cid st.carts = some cart →
        List.lookup pid st.products = some prod →
        findCartItems st pid cid = [] →
        (addProductToCart st pid cid qty).2.cartItems
          = st.cartItems ++ [(st.nextId, { product_id := pid, cart_id := cid, qty := qty,
                                           total := addToTotal 0 (prod.price * qty) })]) := by
  have hupd : ∀ (iid : Nat) (it v : CartItem) (rest : List (Nat × CartItem)),
      findCartItems st pid cid = (iid, it) :: rest →
      v.product_id = it.product_id → v.cart_id = it.cart_id →
      ∀ p c, ((updateA st.cartItems iid v).filter
          (fun x => x.2.product_id == p && x.2.cart_id == c)).length ≤ 1 := by
    intro iid it v rest hfi hv1 hv2 p c
    have hmem : (iid, it) ∈ st.cartItems := by
      have : (iid, it) ∈ findCartItems st pid cid := by
        rw [hfi]; exact List.mem_cons_self _ _
      exact List.mem_of_mem_filter this
    have hlk : List.lookup iid st.cartItems = some it := lookup_of_mem_nodup hk hmem
    have hall : ∀ w, (iid, w) ∈ st.cartItems →
        v.product_id = w.product_id ∧ v.cart_id = w.cart_id := by
      intro w hw
      have := lookup_of_mem_nodup hk hw
      rw [hlk] at this
      cases Option.some_inj.mp this
      exact ⟨hv1, hv2⟩
    rw [length_filter_pair_updateA st.cartItems iid v p c hall]
    exact hu p c
  refine ⟨?_, ?_, ?_, ?_, ?_, ?_⟩
  · intro p c
    rcases addProductToCart_cartItems_shape st pid cid qty with
      hsh | ⟨iid, it, rest, v, hfi, hv1, hv2, hsh⟩ | ⟨v, hfi, hv1, hv2, hsh⟩
    · show ((addProductToCart st pid cid qty).2.cartItems.filter _).length ≤ 1
      rw [hsh]; exact hu p c
    · show ((addProductToCart st pid cid qty).2.cartItems.filter _).length ≤ 1
      rw [hsh]; exact hupd iid it v rest hfi hv1 hv2 p c
    · show ((addProductToCart st pid cid qty).2.cartItems.filter _).length ≤ 1
      rw [hsh, List.filter_append]
      by_cases hpc : p = pid ∧ c = cid
      · have h0 : st.cartItems.filter (fun x => x.2.product_id == p && x.2.cart_id == c) = [] := by
          rw [hpc.1, hpc.2]; exact hfi
        rw [h0, List.nil_append]
        cases hqv : (v.product_id == p && v.cart_id == c) with
        | true => simp [List.filter_cons, hqv]
        | false => simp [List.filter_cons, hqv]
      · have hfalse : (v.product_id == p && v.cart_id == c) = false := by
          rcases not_and_or.mp hpc with hp1 | hp1
          · have hne : v.product_id ≠ p := by rw [hv1]; exact fun he => hp1 he.symm
            simp [hne]
          · have hne : v.cart_id ≠ c := by rw [hv2]; exact fun he => hp1 he.symm
            simp [hne]
        have h1 : (([(st.nextId, v)] : List (Nat × CartItem)).filter
            (fun x => x.2.product_id == p && x.2.cart_id == c)) = [] := by
          simp [List.filter_cons, hfalse]
        rw [h1, List.append_nil]
        exact hu p c
  · intro p c
    rcases removeProductFromCart_cartItems_shape st pid cid qty with
      hsh | ⟨iid, hsh⟩ | ⟨iid, it, rest, v, hfi, hv1, hv2, hsh⟩
    · show ((removeProductFromCart st pid cid qty).2.cartItems.filter _).length ≤ 1
      rw [hsh]; exact hu p c
    · show ((removeProductFromCart st pid cid qty).2.cartItems.filter _).length ≤ 1
      rw [hsh]
      have hsub := ((List.filter_sublist (p := fun x : Nat × CartItem => x.1 != iid)
          st.cartItems).filter (fun x => x.2.product_id == p && x.2.cart_id == c)).length_le
      exact le_trans hsub (hu p c)
    · show ((removeProductFromCart st pid cid qty).2.cartItems.filter _).length ≤ 1
      rw [hsh]; exact hupd iid it v rest hfi hv1 hv2 p c
  · intro p c
    show ((completeCart st cid).2.cartItems.filter _).length ≤ 1
    rw [completeCart_cartItems]
    exact hu p c
  · intro p c
    exact hu p c
  · intro cart prod iid it rest hq hc hp hfi
    rw [addProductToCart_found st qty hq hc hp hfi]
    have hmem : (iid, it) ∈ st.cartItems := by
      have : (iid, it) ∈ findCartItems st pid cid := by
        rw [hfi]; exact List.mem_cons_self _ _
      exact List.mem_of_mem_filter this
    have hlk : List.lookup iid st.cartItems = some it := lookup_of_mem_nodup hk hmem
    refine ⟨keys_updateA _ _ _, ?_⟩
    show List.lookup iid (updateA st.cartItems iid _) = _
    rw [lookup_updateA_self, hlk]
    rfl
  · intro cart prod hq hc hp hfi
    rw [addProductToCart_new st qty hq hc hp hfi]

/-- Witness for C7 at a concrete one-item store. -/
theorem operations_preserve_unique_per_pair_witness :
    UniquePerPair (addProductToCart overRemovalState 1 0 2).2
    ∧ UniquePerPair (removeProductFromCart overRemovalState 1 0 2).2
    ∧ UniquePerPair (completeCart overRemovalState 0).2
    ∧ UniquePerPair (createCart overRemovalState).2
    ∧ (∀ cart prod iid it rest,
        0 < (2 : Int) → List.lookup 0 overRemovalState.carts = some cart →
        List.lookup 1 overRemovalState.products = some prod →
        findCartItems overRemovalState 1 0 = (iid, it) :: rest →
        keys (addProductToCart overRemovalState 1 0 2).2.cartItems = keys overRemovalState.cartItems
        ∧ List.lookup iid (addProductToCart overRemovalState 1 0 2).2.cartItems
            = some { it with qty := it.qty + 2, total := addToTotal it.total (prod.price * 2) })
    ∧ (∀ cart prod,
        0 < (2 : Int) → List.lookup 0 overRemovalState.carts = some cart →
        List.lookup 1 overRemovalState.products = some prod →
        findCartItems overRemovalState 1 0 = [] →
        (addProductToCart overRemovalState 1 0 2).2.cartItems
          = overRemovalState.cartItems ++
              [(overRemovalState.nextId, { product_id := 1, cart_id := 0, qty := 2,
                                           total := addToTotal 0 (prod.price * 2) })]) :=
  operations_preserve_unique_per_pair overRemovalState 1 0 2
    (by
      intro p c
      show ((overRemovalState.cartItems).filter _).length ≤ 1
      simp only [overRemovalState, List.filter]
      split
      · simp
      · simp)
    (by decide)

/-! ## C8 — AddItem then RemoveItem with equal qty is the identity -/

/-- Updating the value stored under the key at the head of a filter (with a
new value still matching the filter) keeps that key at the head. -/
theorem filter_updateA_head (l : List (Nat × CartItem)) (k : Nat) (v w : CartItem)
    (q : Nat × CartItem → Bool)
    (hk : (keys l).Nodup)
    (hfl : ∃ rest, l.filter q = (k, w) :: rest)
    (hqv : q (k, v) = true) :
    ∃ rest', (updateA l k v).filter q = (k, v) :: rest' := by
  induction l with
  | nil =>
      obtain ⟨r, hr⟩ := hfl
      simp at hr
  | cons hd tl ih =>
      obtain ⟨a, b⟩ := hd
      rw [keys_cons] at hk
      obtain ⟨r, hr⟩ := hfl
      rw [updateA_cons]
      by_cases hak : a = k
      · subst hak
        rw [if_pos rfl, List.filter_cons, if_pos (by simpa using hqv)]
        exact ⟨_, rfl⟩
      · rw [if_neg hak, List.filter_cons]
        rw [List.filter_cons] at hr
        by_cases hq : q (a, b) = true
        · rw [if_pos (by simpa using hq)] at hr
          injection hr with h1 h2
          exact absurd (congrArg Prod.fst h1) hak
        · have hq' : q (a, b) = false := by
            cases hqb : q (a, b) with
            | true => exact absurd hqb hq
            | false => rfl
          rw [if_neg (by simp [hq'])] at hr
          rw [if_neg (by simp [hq'])]
          exact ih (List.nodup_cons.mp hk).2 ⟨r, hr⟩

/-- RemoveItem undoes a fresh-item AddItem: the created line item is deleted
and the cart record is restored exactly. -/
theorem roundtrip_new_case (st1 st : State) (pid cid : Nat) (q : Int)
    (cart : Cart) (prod : Product)
    (hq : 0 < q)
    (hp : List.lookup pid st.products = some prod)
    (hfi : findCartItems st pid cid = [])
    (hfresh : st.nextId ∉ cart.items)
    (hitems : st1.cartItems = st.cartItems ++
        [(st.nextId, { product_id := pid, cart_id := cid, qty := q,
                       total := addToTotal 0 (prod.price * q) })])
    (hprod : st1.products = st.products)
    (hcarts1 : List.lookup cid st1.carts
        = some { cart with items := cart.items ++ [st.nextId],
                           total := addToTotal cart.total (prod.price * q) }) :
    (removeProductFromCart st1 pid cid q).1.isOk = true
    ∧ List.lookup st.nextId (removeProductFromCart st1 pid cid q).2.cartItems = none
    ∧ List.lookup cid (removeProductFromCart st1 pid cid q).2.carts = some cart := by
  have hfi1 : findCartItems st1 pid cid
      = [(st.nextId, { product_id := pid, cart_id := cid, qty := q,
                       total := addToTotal 0 (prod.price * q) })] := by
    show st1.cartItems.filter _ = _
    rw [hitems, List.filter_append]
    have h0 : st.cartItems.filter
        (fun x => x.2.product_id == pid && x.2.cart_id == cid) = [] := hfi
    rw [h0, List.nil_append]
    simp [List.filter_cons]
  have hp1 : List.lookup ({ product_id := pid, cart_id := cid, qty := q, total := addToTotal 0 (prod.price * q) } : CartItem).product_id st1.products
      = some prod := by
    show List.lookup pid st1.products = some prod
    rw [hprod]
    exact hp
  have hle : ({ product_id := pid, cart_id := cid, qty := q, total := addToTotal 0 (prod.price * q) } : CartItem).qty - q ≤ 0 := by
    show q - q ≤ 0
    omega
  have hrm := removeProductFromCart_delete st1 q hq hcarts1 hfi1 hp1 hle
  rw [hrm]
  refine ⟨rfl, ?_, ?_⟩
  · show List.lookup st.nextId (st1.cartItems.filter _) = none
    exact lookup_filter_ne_self _ _
  · show List.lookup cid (updateA st1.carts cid _) = _
    rw [lookup_updateA_self, hcarts1]
    show some ({ items := spliceOne (cart.items ++ [st.nextId]) (lastMatchIndex (cart.items ++ [st.nextId]) st.nextId), total := addToTotal (addToTotal cart.total (prod.price * q)) (-1 * (q + (q - q)) * prod.price), completed := cart.completed } : Cart) = some cart
    have hsp : spliceOne (cart.items ++ [st.nextId])
        (lastMatchIndex (cart.items ++ [st.nextId]) st.nextId) = cart.items := by
      have h2 := @splice_lastMatch cart.items [] st.nextId hfresh (by simp)
      simpa using h2
    have htot : addToTotal (addToTotal cart.total (prod.price * q))
        (-1 * (q + (q - q)) * prod.price) = cart.total := by
      unfold addToTotal
      ring
    rw [hsp, htot]

/-- RemoveItem undoes an existing-item AddItem: the line item's prior qty and
total come back and the cart record is restored exactly. -/
theorem roundtrip_found_case (st1 st : State) (pid cid iid : Nat) (q : Int)
    (cart : Cart) (prod : Product) (it : CartItem) (rest : List (Nat × CartItem))
    (hq : 0 < q)
    (hp : List.lookup pid st.products = some prod)
    (hk : (keys st.cartItems).Nodup)
    (hfi : findCartItems st pid cid = (iid, it) :: rest)
    (hlive : 0 < it.qty)
    (hitems : st1.cartItems = updateA st.cartItems iid
        { it with qty := it.qty + q, total := addToTotal it.total (prod.price * q) })
    (hprod : st1.products = st.products)
    (hcarts1 : List.lookup cid st1.carts
        = some { cart with total := addToTotal cart.total (prod.price * q) }) :
    (removeProductFromCart st1 pid cid q).1.isOk = true
    ∧ List.lookup iid (removeProductFromCart st1 pid cid q).2.cartItems = some it
    ∧ List.lookup cid (removeProductFromCart st1 pid cid q).2.carts = some cart := by
  have hqv : ((fun x : Nat × CartItem => x.2.product_id == pid && x.2.cart_id == cid)
      (iid, { it with qty := it.qty + q,
                      total := addToTotal it.total (prod.price * q) })) = true := by
    have hpair := findCartItems_head hfi
    show (it.product_id == pid && it.cart_id == cid) = true
    simp [hpair.1, hpair.2]
  obtain ⟨rest', hfil⟩ := filter_updateA_head st.cartItems iid
      { it with qty := it.qty + q, total := addToTotal it.total (prod.price * q) } it
      (fun x => x.2.product_id == pid && x.2.cart_id == cid) hk ⟨rest, hfi⟩ hqv
  have hfi1 : findCartItems st1 pid cid
      = (iid, { it with qty := it.qty + q,
                        total := addToTotal it.total (prod.price * q) }) :: rest' := by
    show st1.cartItems.filter _ = _
    rw [hitems]
    exact hfil
  have hp1 : List.lookup ({ it with qty := it.qty + q, total := addToTotal it.total (prod.price * q) } : CartItem).product_id st1.products
      = some prod := by
    show List.lookup it.product_id st1.products = some prod
    rw [hprod, (findCartItems_head hfi).1]
    exact hp
  have hgt : ¬ ({ it with qty := it.qty + q, total := addToTotal it.total (prod.price * q) } : CartItem).qty - q ≤ 0 := by
    show ¬ it.qty + q - q ≤ 0
    omega
  have hrm := removeProductFromCart_keep st1 q hq hcarts1 hfi1 hp1 hgt
  rw [hrm]
  have hmem0 : (iid, it) ∈ findCartItems st pid cid := by
    rw [hfi]
    exact List.mem_cons_self (iid, it) rest
  have hmem : (iid, it) ∈ st.cartItems := List.mem_of_mem_filter hmem0
  have hlk : List.lookup iid st.cartItems = some it := lookup_of_mem_nodup hk hmem
  refine ⟨rfl, ?_, ?_⟩
  · show List.lookup iid (updateA st1.cartItems iid _) = some it
    rw [lookup_updateA_self, hitems, lookup_updateA_self, hlk]
    show some ({ product_id := it.product_id, cart_id := it.cart_id, qty := it.qty + q - q, total := addToTotal (addToTotal it.total (prod.price * q)) (-1 * prod.price * q) } : CartItem) = some it
    have h1 : it.qty + q - q = it.qty := by ring
    have h2 : addToTotal (addToTotal it.total (prod.price * q)) (-1 * prod.price * q)
        = it.total := by
      unfold addToTotal
      ring
    rw [h1, h2]
  · show List.lookup cid (updateA st1.carts cid _) = _
    rw [lookup_updateA_self, hcarts1]
    show some ({ items := cart.items, total := addToTotal (addToTotal cart.total (prod.price * q)) (-1 * q * prod.price), completed := cart.completed } : Cart) = some cart
    have h2 : addToTotal (addToTotal cart.total (prod.price * q)) (-1 * q * prod.price)
        = cart.total := by
      unfold addToTotal
      ring
    rw [h2]

/-- C8: AddItem(p, c, q) followed by RemoveItem(p, c, q) (same q > 0) both
succeed, restore the cart record exactly (same item set, total and completed
flag), and restore the line item's prior qty and total; when the pair had no
line item before the AddItem (so qty reaches zero on removal), the created
line item is deleted again and the restored cart does not reference it. -/
theorem add_remove_roundtrip (st : State) (pid cid : Nat) (q : Int)
    (cart : Cart) (prod : Product)
    (hq : 0 < q) (hc : List.lookup cid st.carts = some cart)
    (hp : List.lookup pid st.products = some prod)
    (hk : (keys st.cartItems).Nodup)
    (hfresh : st.nextId ∉ cart.items)
    (hlive : ∀ x ∈ findCartItems st pid cid, 0 < x.2.qty) :
    (addProductToCart st pid cid q).1.isOk = true
    ∧ (removeProductFromCart (addProductToCart st pid cid q).2 pid cid q).1.isOk = true
    ∧ (findCartItems st pid cid = [] →
        List.lookup st.nextId
            (removeProductFromCart (addProductToCart st pid cid q).2 pid cid q).2.cartItems
          = none
        ∧ List.lookup cid
            (removeProductFromCart (addProductToCart st pid cid q).2 pid cid q).2.carts
          = some cart)
    ∧ (∀ iid it rest, findCartItems st pid cid = (iid, it) :: rest →
        List.lookup iid
            (removeProductFromCart (addProductToCart st pid cid q).2 pid cid q).2.cartItems
          = some it
        ∧ List.lookup cid
            (removeProductFromCart (addProductToCart st pid cid q).2 pid cid q).2.carts
          = some cart) := by
  cases hfi : findCartItems st pid cid with
  | nil =>
      have hadd := addProductToCart_new st q hq hc hp hfi
      have hc1 : List.lookup cid (addProductToCart st pid cid q).2.carts
          = some { cart with items := cart.items ++ [st.nextId],
                             total := addToTotal cart.total (prod.price * q) } := by
        rw [hadd]
        show List.lookup cid (updateA st.carts cid _) = _
        rw [lookup_updateA_self, hc]
        rfl
      have hkey := roundtrip_new_case (addProductToCart st pid cid q).2 st pid cid q cart prod
          hq hp hfi hfresh (by rw [hadd]) (by rw [hadd]) hc1
      refine ⟨by rw [hadd]; rfl, hkey.1, fun _ => ⟨hkey.2.1, hkey.2.2⟩, ?_⟩
      intro iid it r hfi2
      exact absurd hfi2 (by simp)
  | cons hd rest =>
      obtain ⟨iid, it⟩ := hd
      have hadd := addProductToCart_found st q hq hc hp hfi
      have hc1 : List.lookup cid (addProductToCart st pid cid q).2.carts
          = some { cart with total := addToTotal cart.total (prod.price * q) } := by
        rw [hadd]
        show List.lookup cid (updateA st.carts cid _) = _
        rw [lookup_updateA_self, hc]
        rfl
      have hlive1 : 0 < it.qty :=
        hlive (iid, it) (by rw [hfi]; exact List.mem_cons_self (iid, it) rest)
      have hkey := roundtrip_found_case (addProductToCart st pid cid q).2 st pid cid iid q
          cart prod it rest hq hp hk hfi hlive1 (by rw [hadd]) (by rw [hadd]) hc1
      refine ⟨by rw [hadd]; rfl, hkey.1, ?_, ?_⟩
      · intro h0
        exact absurd h0 (by simp)
      · intro iid' it' rest' hfi2
        injection hfi2 with h1 h2
        injection h1 with h3 h4
        subst h3
        subst h4
        exact ⟨hkey.2.1, hkey.2.2⟩

/-- Witness for C8 at a concrete one-item store (existing-item case). -/
theorem add_remove_roundtrip_witness :
    (addProductToCart overRemovalState 1 0 2).1.isOk = true
    ∧ (removeProductFromCart (addProductToCart overRemovalState 1 0 2).2 1 0 2).1.isOk = true
    ∧ (findCartItems overRemovalState 1 0 = [] →
        List.lookup overRemovalState.nextId
            (removeProductFromCart (addProductToCart overRemovalState 1 0 2).2 1 0 2).2.cartItems
          = none
        ∧ List.lookup 0
            (removeProductFromCart (addProductToCart overRemovalState 1 0 2).2 1 0 2).2.carts
          = some ⟨[7], 30, false⟩)
    ∧ (∀ iid it rest, findCartItems overRemovalState 1 0 = (iid, it) :: rest →
        List.lookup iid
            (removeProductFromCart (addProductToCart overRemovalState 1 0 2).2 1 0 2).2.cartItems
          = some it
        ∧ List.lookup 0
            (removeProductFromCart (addProductToCart overRemovalState 1 0 2).2 1 0 2).2.carts
          = some ⟨[7], 30, false⟩) :=
  add_remove_roundtrip overRemovalState 1 0 2 ⟨[7], 30, false⟩ ⟨"P", 10, 5⟩
    (by decide) (by decide) (by decide) (by decide) (by decide) (by decide)

/-! ## C6 — successful CompleteCart decrements exactly once per line item -/

theorem itemResolvable_elim {st : State} {i : Nat} {it : CartItem}
    (h : itemResolvable st i = true) (hit : List.lookup i st.cartItems = some it) :
    ∃ p, List.lookup it.product_id st.products = some p := by
  simp only [itemResolvable, hit] at h
  cases hpp : List.lookup it.product_id st.products with
  | none => rw [hpp] at h; simp at h
  | some p => exact ⟨p, rfl⟩

theorem itemInsufficient_elim {st : State} {i : Nat} {it : CartItem} {p : Product}
    (h : itemInsufficient st i = false) (hit : List.lookup i st.cartItems = some it)
    (hpp : List.lookup it.product_id st.products = some p) :
    it.qty ≤ p.inventory_count := by
  simp only [itemInsufficient, hit, hpp, decide_eq_false_iff_not] at h
  omega

/-- When every item of the list resolves and passes the inventory check, the
validation loop returns exactly the resolved items, in order. -/
theorem validateItems_ok (st : State) (items : List Nat)
    (hres : ∀ i ∈ items, itemResolvable st i = true ∧ itemInsufficient st i = false) :
    validateItems st items = .ok (resolveList st items) := by
  induction items with
  | nil => rfl
  | cons j rest ih =>
      obtain ⟨hr, hins⟩ := hres j (List.mem_cons_self _ _)
      cases hit : List.lookup j st.cartItems with
      | none => exact absurd (by simpa only [itemResolvable, hit] using hr) (by simp)
      | some it =>
          simp only [itemResolvable, hit] at hr
          cases hpp : List.lookup it.product_id st.products with
          | none => rw [hpp] at hr; simp at hr
          | some p =>
              have hcmp : ¬ p.inventory_count < it.qty := by
                simp only [itemInsufficient, hit, hpp, decide_eq_false_iff_not] at hins
                exact hins
              simp only [validateItems, hit, hpp]
              rw [if_neg hcmp, ih (fun i hi => hres i (List.mem_cons_of_mem _ hi))]
              have hres0 : resolveList st (j :: rest) = (j, it) :: resolveList st rest := by
                simp [resolveList, hit]
              rw [hres0]

theorem mem_resolveList_of (st : State) {items : List Nat} {i : Nat} {it : CartItem}
    (hi : i ∈ items) (hlk : List.lookup i st.cartItems = some it) :
    (i, it) ∈ resolveList st items := by
  induction items with
  | nil => simp at hi
  | cons j rest ih =>
      cases hj : List.lookup j st.cartItems with
      | none =>
          rw [show resolveList st (j :: rest) = resolveList st rest from by
            simp [resolveList, hj]]
          rcases List.mem_cons.mp hi with he | he
          · subst he; rw [hj] at hlk; exact absurd hlk (by simp)
          · exact ih he
      | some w =>
          rw [show resolveList st (j :: rest) = (j, w) :: resolveList st rest from by
            simp [resolveList, hj]]
          rcases List.mem_cons.mp hi with he | he
          · subst he
            rw [hj] at hlk
            cases Option.some_inj.mp hlk
            exact List.mem_cons_self _ _
          · exact List.mem_cons_of_mem _ (ih he)

theorem resolveList_mem (st : State) {items : List Nat} {x : Nat × CartItem}
    (hx : x ∈ resolveList st items) :
    x.1 ∈ items ∧ List.lookup x.1 st.cartItems = some x.2 := by
  induction items with
  | nil => simp [resolveList] at hx
  | cons j rest ih =>
      cases hj : List.lookup j st.cartItems with
      | none =>
          rw [show resolveList st (j :: rest) = resolveList st rest from by
            simp [resolveList, hj]] at hx
          exact ⟨List.mem_cons_of_mem _ (ih hx).1, (ih hx).2⟩
      | some w =>
          rw [show resolveList st (j :: rest) = (j, w) :: resolveList st rest from by
            simp [resolveList, hj]] at hx
          rcases List.mem_cons.mp hx with he | he
          · subst he
            exact ⟨List.mem_cons_self _ _, hj⟩
          · exact ⟨List.mem_cons_of_mem _ (ih he).1, (ih he).2⟩

theorem pidsOf_resolveList (st : State) (items : List Nat) :
    pidsOf (resolveList st items) = resolvedPids st items := by
  induction items with
  | nil => rfl
  | cons j rest ih =>
      cases hj : List.lookup j st.cartItems with
      | none =>
          rw [show resolveList st (j :: rest) = resolveList st rest from by
              simp [resolveList, hj],
            show resolvedPids st (j :: rest) = resolvedPids st rest from by
              simp [resolvedPids, hj]]
          exact ih
      | some w =>
          rw [show resolveList st (j :: rest) = (j, w) :: resolveList st rest from by
              simp [resolveList, hj],
            show resolvedPids st (j :: rest) = w.product_id :: resolvedPids st rest from by
              simp [resolvedPids, hj]]
          show w.product_id :: pidsOf (resolveList st rest) = _
          rw [ih]

theorem mem_resolvedPids {st : State} {items : List Nat} {pid : Nat}
    (h : pid ∈ resolvedPids st items) :
    ∃ i ∈ items, ∃ it, List.lookup i st.cartItems = some it ∧ it.product_id = pid := by
  obtain ⟨i, hi, hf⟩ := List.mem_filterMap.mp h
  cases hj : List.lookup i st.cartItems with
  | none => rw [hj] at hf; simp at hf
  | some w =>
      rw [hj] at hf
      simp only [Option.map_some'] at hf
      exact ⟨i, hi, w, hj, Option.some_inj.mp hf⟩

/-- The decrement loop succeeds when every product resolves. -/
theorem applyDecrements_ok (st : State) (l : List (Nat × CartItem))
    (h : ∀ x ∈ l, (List.lookup x.2.product_id st.products).isSome = true) :
    (applyDecrements st l).1 = .ok () := by
  induction l generalizing st with
  | nil => rfl
  | cons hd tl ih =>
      obtain ⟨j, it⟩ := hd
      have hh := h (j, it) (List.mem_cons_self _ _)
      cases hpp : List.lookup it.product_id st.products with
      | none => rw [hpp] at hh; simp at hh
      | some prod =>
          simp only [applyDecrements, hpp]
          apply ih
          intro x hx
          by_cases hxp : x.2.product_id = it.product_id
          · rw [hxp]
            show (List.lookup it.product_id (updateA st.products it.product_id _)).isSome = true
            rw [lookup_updateA_self, hpp]
            rfl
          · show (List.lookup x.2.product_id (updateA st.products it.product_id _)).isSome = true
            rw [lookup_updateA_ne _ _ hxp]
            exact h x (List.mem_cons_of_mem _ hx)

/-- Products not referenced by the list are untouched by the decrement loop. -/
theorem applyDecrements_products_frame (st : State) (l : List (Nat × CartItem)) (pid : Nat)
    (h : pid ∉ pidsOf l) :
    List.lookup pid (applyDecrements st l).2.products = List.lookup pid st.products := by
  induction l generalizing st with
  | nil => rfl
  | cons hd tl ih =>
      obtain ⟨j, it⟩ := hd
      have hne : pid ≠ it.product_id := by
        intro he
        exact h (by rw [he]; exact List.mem_cons_self _ _)
      have htl : pid ∉ pidsOf tl := fun hm => h (List.mem_cons_of_mem _ hm)
      cases hpp : List.lookup it.product_id st.products with
      | none => simp only [applyDecrements, hpp]
      | some prod =>
          simp only [applyDecrements, hpp]
          rw [ih _ htl]
          show List.lookup pid (updateA st.products it.product_id _) = _
          exact lookup_updateA_ne _ _ hne

theorem applyDecrements_products_keys (st : State) (l : List (Nat × CartItem)) :
    keys (applyDecrements st l).2.products = keys st.products := by
  induction l generalizing st with
  | nil => rfl
  | cons hd tl ih =>
      obtain ⟨j, it⟩ := hd
      cases hpp : List.lookup it.product_id st.products with
      | none => simp only [applyDecrements, hpp]
      | some prod =>
          simp only [applyDecrements, hpp]
          rw [ih _]
          show keys (updateA st.products it.product_id _) = _
          exact keys_updateA _ _ _

/-- With pairwise-distinct product ids, each listed product ends up
decremented by exactly its item's qty. -/
theorem applyDecrements_lookup (st : State) (l : List (Nat × CartItem))
    (hnd : (pidsOf l).Nodup)
    (hres : ∀ x ∈ l, (List.lookup x.2.product_id st.products).isSome = true) :
    ∀ x ∈ l, ∀ p, List.lookup x.2.product_id st.products = some p →
      List.lookup x.2.product_id (applyDecrements st l).2.products
        = some { p with inventory_count := p.inventory_count - x.2.qty } := by
  induction l generalizing st with
  | nil => intro x hx; simp at hx
  | cons hd tl ih =>
      obtain ⟨j, it⟩ := hd
      intro x hx p hp
      have hnd1 : it.product_id ∉ pidsOf tl := (List.nodup_cons.mp hnd).1
      have hnd2 : (pidsOf tl).Nodup := (List.nodup_cons.mp hnd).2
      rcases List.mem_cons.mp hx with he | he
      · subst he
        cases hpp : List.lookup it.product_id st.products with
        | none => rw [hpp] at hp; exact absurd hp (by simp)
        | some prod =>
            rw [hpp] at hp
            cases Option.some_inj.mp hp
            simp only [applyDecrements, hpp]
            rw [applyDecrements_products_frame _ tl it.product_id hnd1]
            show List.lookup it.product_id (updateA st.products it.product_id _) = _
            rw [lookup_updateA_self, hpp]
            rfl
      · have hxm : x.2.product_id ∈ pidsOf tl := List.mem_map_of_mem _ he
        have hxe : x.2.product_id ≠ it.product_id := fun hh => hnd1 (hh ▸ hxm)
        cases hpp : List.lookup it.product_id st.products with
        | none =>
            have := hres (j, it) (List.mem_cons_self _ _)
            rw [hpp] at this
            simp at this
        | some prod =>
            simp only [applyDecrements, hpp]
            have hp1 : List.lookup x.2.product_id
                (updateA st.products it.product_id
                  { prod with inventory_count := prod.inventory_count - it.qty }) = some p := by
              rw [lookup_updateA_ne _ _ hxe]
              exact hp
            have hres1 : ∀ y ∈ tl, (List.lookup y.2.product_id
                (updateA st.products it.product_id
                  { prod with inventory_count := prod.inventory_count - it.qty })).isSome
                  = true := by
              intro y hy
              by_cases hyp : y.2.product_id = it.product_id
              · rw [hyp, lookup_updateA_self, hpp]
                rfl
              · rw [lookup_updateA_ne _ _ hyp]
                exact hres y (List.mem_cons_of_mem _ hy)
            exact ih _ hnd2 hres1 x he p hp1

/-- C6: on an open cart whose line items all resolve and pass the inventory
check, with pairwise-distinct products across the items, CompleteCart
succeeds, marks the cart completed, decrements each referenced product's
inventory_count by exactly its line item's qty, and leaves every
inventory_count non-negative. -/
theorem completeCart_success (st : State) (cid : Nat) (cart : Cart)
    (hc : List.lookup cid st.carts = some cart) (hnc : cart.completed = false)
    (hres : ∀ i ∈ cart.items, itemResolvable st i = true ∧ itemInsufficient st i = false)
    (hdist : (resolvedPids st cart.items).Nodup)
    (hpk : (keys st.products).Nodup)
    (hpos : ∀ x ∈ st.products, 0 ≤ x.2.inventory_count) :
    (completeCart st cid).1
        = .ok { id := cid, items := cart.items, total := cart.total, completed := true }
    ∧ List.lookup cid (completeCart st cid).2.carts = some { cart with completed := true }
    ∧ (∀ i ∈ cart.items, ∀ it, List.lookup i st.cartItems = some it →
        ∀ p, List.lookup it.product_id st.products = some p →
          List.lookup it.product_id (completeCart st cid).2.products
            = some { p with inventory_count := p.inventory_count - it.qty })
    ∧ (∀ x ∈ (completeCart st cid).2.products, 0 ≤ x.2.inventory_count) := by
  have hval := validateItems_ok st cart.items hres
  have hlres : ∀ x ∈ resolveList st cart.items,
      (List.lookup x.2.product_id st.products).isSome = true := by
    intro x hx
    obtain ⟨hx1, hx2⟩ := resolveList_mem st hx
    obtain ⟨p, hpx⟩ := itemResolvable_elim (hres x.1 hx1).1 hx2
    rw [hpx]
    rfl
  have hok := applyDecrements_ok st (resolveList st cart.items) hlres
  have hdec : applyDecrements st (resolveList st cart.items)
      = ((.ok () : Except Err Unit),
         (applyDecrements st (resolveList st cart.items)).2) := by
    rw [← hok]
  have hcomm := completeCart_commit st
      (applyDecrements st (resolveList st cart.items)).2 hc hnc hval hdec
  rw [hcomm]
  have hnd : (pidsOf (resolveList st cart.items)).Nodup := by
    rw [pidsOf_resolveList]
    exact hdist
  refine ⟨rfl, ?_, ?_, ?_⟩
  · show List.lookup cid (updateA _ cid _) = _
    rw [lookup_updateA_self, (applyDecrements_frame st (resolveList st cart.items)).2.1, hc]
    rfl
  · intro i hi it hit p hp
    have hmem : (i, it) ∈ resolveList st cart.items := mem_resolveList_of st hi hit
    exact applyDecrements_lookup st (resolveList st cart.items) hnd hlres (i, it) hmem p hp
  · intro x hx
    have hkeys : (keys (applyDecrements st (resolveList st cart.items)).2.products).Nodup := by
      rw [applyDecrements_products_keys]
      exact hpk
    have hlkx : List.lookup x.1 (applyDecrements st (resolveList st cart.items)).2.products
        = some x.2 := lookup_of_mem_nodup hkeys hx
    by_cases hin : x.1 ∈ resolvedPids st cart.items
    · obtain ⟨i, hi, it, hit, hpid⟩ := mem_resolvedPids hin
      obtain ⟨p0, hp0⟩ := itemResolvable_elim (hres i hi).1 hit
      have hq0 : it.qty ≤ p0.inventory_count :=
        itemInsufficient_elim (hres i hi).2 hit hp0
      have hmem : (i, it) ∈ resolveList st cart.items := mem_resolveList_of st hi hit
      have hfin := applyDecrements_lookup st (resolveList st cart.items) hnd hlres
        (i, it) hmem p0 hp0
      rw [hpid] at hfin
      rw [hfin] at hlkx
      have hx2 : x.2 = { p0 with inventory_count := p0.inventory_count - it.qty } :=
        (Option.some_inj.mp hlkx).symm
      rw [hx2]
      show 0 ≤ p0.inventory_count - it.qty
      omega
    · rw [applyDecrements_products_frame st (resolveList st cart.items) x.1
          (by rw [pidsOf_resolveList]; exact hin)] at hlkx
      exact hpos x (by
        have := mem_of_lookup_eq_some hlkx
        simpa using this)

/-- Witness for C6: two products (inventories 5 and 4), one cart with line
items of qty 3 and 2. -/
theorem completeCart_success_witness :
    (completeCart twoProductState 0).1
        = .ok { id := 0, items := [7, 8], total := 70, completed := true }
    ∧ List.lookup 0 (completeCart twoProductState 0).2.carts = some ⟨[7, 8], 70, true⟩
    ∧ (∀ i ∈ ([7, 8] : List Nat), ∀ it, List.lookup i twoProductState.cartItems = some it →
        ∀ p, List.lookup it.product_id twoProductState.products = some p →
          List.lookup it.product_id (completeCart twoProductState 0).2.products
            = some { p with inventory_count := p.inventory_count - it.qty })
    ∧ (∀ x ∈ (completeCart twoProductState 0).2.products, 0 ≤ x.2.inventory_count) :=
  completeCart_success twoProductState 0 ⟨[7, 8], 70, false⟩
    (by decide) rfl (by decide) (by decide) (by decide) (by decide)

/-! ## C4 — cart total equals the sum over live line items -/

theorem itemTotalSum_cons (l : List (Nat × CartItem)) (j : Nat) (rest : List Nat) :
    itemTotalSum l (j :: rest)
      = (match List.lookup j l with | some it => it.total | none => 0)
        + itemTotalSum l rest := by
  unfold itemTotalSum
  rw [List.map_cons, List.sum_cons]

theorem itemPriceQtySum_cons (ps : List (Nat × Product)) (l : List (Nat × CartItem))
    (j : Nat) (rest : List Nat) :
    itemPriceQtySum ps l (j :: rest)
      = (match List.lookup j l with
         | some it =>
           match List.lookup it.product_id ps with
           | some p => p.price * it.qty
           | none => 0
         | none => 0)
        + itemPriceQtySum ps l rest := by
  unfold itemPriceQtySum
  rw [List.map_cons, List.sum_cons]

theorem itemTotalSum_congr {l l' : List (Nat × CartItem)} {items : List Nat}
    (h : ∀ i ∈ items, List.lookup i l' = List.lookup i l) :
    itemTotalSum l' items = itemTotalSum l items := by
  unfold itemTotalSum
  congr 1
  apply List.map_congr_left
  intro i hi
  rw [h i hi]

theorem itemTotalSum_updateA {l : List (Nat × CartItem)} {items : List Nat} {k : Nat}
    {v w : CartItem}
    (hnd : items.Nodup) (hmem : k ∈ items) (hlk : List.lookup k l = some w) :
    itemTotalSum (updateA l k v) items = itemTotalSum l items - w.total + v.total := by
  induction items with
  | nil => simp at hmem
  | cons j rest ih =>
      rw [List.nodup_cons] at hnd
      rcases List.mem_cons.mp hmem with he | he
      · have hjk : j = k := he.symm
        subst hjk
        have h1 : List.lookup j (updateA l j v) = some v := by
          rw [lookup_updateA_self, hlk]
          rfl
        have h2 : itemTotalSum (updateA l j v) rest = itemTotalSum l rest :=
          itemTotalSum_congr (fun i hi =>
            lookup_updateA_ne _ _ (fun hik => hnd.1 (hik ▸ hi)))
        rw [itemTotalSum_cons, itemTotalSum_cons, h1, hlk, h2]
        show v.total + itemTotalSum l rest
            = w.total + itemTotalSum l rest - w.total + v.total
        ring
      · have hjk : j ≠ k := fun hh => hnd.1 (hh ▸ he)
        have hjk' : k ≠ j := fun hh => hjk hh.symm
        rw [itemTotalSum_cons, itemTotalSum_cons, lookup_updateA_ne _ _ hjk,
          ih hnd.2 he]
        ring

theorem itemTotalSum_append_frame {l : List (Nat × CartItem)} {x : Nat × CartItem}
    {items : List Nat}
    (h : ∀ i ∈ items, (List.lookup i l).isSome = true) :
    itemTotalSum (l ++ [x]) items = itemTotalSum l items := by
  apply itemTotalSum_congr
  intro i hi
  cases hlk : List.lookup i l with
  | none =>
      have hh := h i hi
      rw [hlk] at hh
      simp at hh
  | some w => exact lookup_append_some _ hlk

theorem itemTotalSum_append_items (l : List (Nat × CartItem)) (items : List Nat) (n : Nat) :
    itemTotalSum l (items ++ [n])
      = itemTotalSum l items
        + (match List.lookup n l with | some it => it.total | none => 0) := by
  unfold itemTotalSum
  rw [List.map_append, List.sum_append]
  simp

theorem itemTotalSum_eq_priceQty (ps : List (Nat × Product)) (l : List (Nat × CartItem))
    (items : List Nat)
    (h : ∀ i ∈ items, ∀ it, List.lookup i l = some it →
        ∃ p, List.lookup it.product_id ps = some p ∧ it.total = p.price * it.qty) :
    itemTotalSum l items = itemPriceQtySum ps l items := by
  induction items with
  | nil => rfl
  | cons j rest ih =>
      rw [itemTotalSum_cons, itemPriceQtySum_cons,
        ih (fun i hi => h i (List.mem_cons_of_mem _ hi))]
      congr 1
      cases hlk : List.lookup j l with
      | none => rfl
      | some it =>
          obtain ⟨p, hp, hpt⟩ := h j (List.mem_cons_self _ _) it hlk
          show it.total = match List.lookup it.product_id ps with
            | some p => p.price * it.qty
            | none => 0
          rw [hp]
          exact hpt

theorem lookup_mem_keys {α : Type} {l : List (Nat × α)} {k : Nat} {v : α}
    (h : List.lookup k l = some v) : k ∈ keys l :=
  List.mem_map_of_mem Prod.fst (mem_of_lookup_eq_some h)

/-- AddItem on an existing line item preserves the cart invariant. -/
theorem WF_found_branch (st : State) (pid cid iid : Nat) (q : Int)
    (cart : Cart) (prod : Product) (it : CartItem) (rest : List (Nat × CartItem))
    (hwf : WF st cid) (hq : 0 < q)
    (hc : List.lookup cid st.carts = some cart)
    (hp : List.lookup pid st.products = some prod)
    (hfi : findCartItems st pid cid = (iid, it) :: rest) :
    WF { st with
          cartItems := updateA st.cartItems iid
            { it with qty := it.qty + q, total := addToTotal it.total (prod.price * q) }
          carts := updateA st.carts cid
            { cart with total := addToTotal cart.total (prod.price * q) } } cid := by
  obtain ⟨⟨hk1, hk2, hb1, hb2, hb3⟩, hcart⟩ := hwf
  obtain ⟨hnd, hresv, hstore, htot, hpt⟩ := hcart cart hc
  have hmemf : (iid, it) ∈ findCartItems st pid cid := by
    rw [hfi]
    exact List.mem_cons_self _ _
  have hmem : (iid, it) ∈ st.cartItems := List.mem_of_mem_filter hmemf
  have hlk : List.lookup iid st.cartItems = some it := lookup_of_mem_nodup hk1 hmem
  have hpidc := findCartItems_head hfi
  constructor
  · refine ⟨?_, ?_, ?_, ?_, ?_⟩
    · show (keys (updateA st.cartItems iid _)).Nodup
      rw [keys_updateA]
      exact hk1
    · show (keys (updateA st.carts cid _)).Nodup
      rw [keys_updateA]
      exact hk2
    · intro x hx
      rcases mem_updateA hx with hx1 | hx1
      · exact hb1 x hx1
      · subst hx1
        exact hb1 (iid, it) hmem
    · intro x hx
      rcases mem_updateA hx with hx1 | hx1
      · exact hb2 x hx1
      · subst hx1
        exact hb2 (cid, cart) (mem_of_lookup_eq_some hc)
    · intro x hx
      rcases mem_updateA hx with hx1 | hx1
      · exact hb3 x hx1
      · subst hx1
        exact hb3 (iid, it) hmem
  · intro cart0 hc0
    rw [show List.lookup cid (updateA st.carts cid
        { cart with total := addToTotal cart.total (prod.price * q) })
        = some { cart with total := addToTotal cart.total (prod.price * q) } from by
      rw [lookup_updateA_self, hc]; rfl] at hc0
    cases Option.some_inj.mp hc0
    refine ⟨hnd, ?_, ?_, ?_, ?_⟩
    · intro i hi
      by_cases hii : i = iid
      · subst hii
        refine ⟨{ it with qty := it.qty + q, total := addToTotal it.total (prod.price * q) },
          ?_, hpidc.2⟩
        show List.lookup i (updateA st.cartItems i _) = _
        rw [lookup_updateA_self, hlk]
        rfl
      · obtain ⟨it0, hit0, hcid0⟩ := hresv i hi
        refine ⟨it0, ?_, hcid0⟩
        show List.lookup i (updateA st.cartItems iid _) = some it0
        rw [lookup_updateA_ne _ _ hii]
        exact hit0
    · intro x hx hxc
      rcases mem_updateA hx with hx1 | hx1
      · exact hstore x hx1 hxc
      · subst hx1
        exact hstore (iid, it) hmem hpidc.2
    · show addToTotal cart.total (prod.price * q)
          = itemTotalSum (updateA st.cartItems iid _) cart.items
      rw [itemTotalSum_updateA hnd (hstore (iid, it) hmem hpidc.2) hlk, ← htot]
      show cart.total + prod.price * q
          = cart.total - it.total + (it.total + prod.price * q)
      ring
    · intro i hi it0 hit0
      by_cases hii : i = iid
      · subst hii
        rw [show List.lookup i (updateA st.cartItems i
            { it with qty := it.qty + q, total := addToTotal it.total (prod.price * q) })
            = some { it with qty := it.qty + q,
                             total := addToTotal it.total (prod.price * q) } from by
          rw [lookup_updateA_self, hlk]; rfl] at hit0
        cases Option.some_inj.mp hit0
        obtain ⟨p1, hp1, hpt1⟩ := hpt i hi it hlk
        rw [hpidc.1] at hp1
        have hpe : p1 = prod := Option.some_inj.mp (hp1.symm.trans hp)
        subst hpe
        refine ⟨p1, ?_, ?_⟩
        · show List.lookup it.product_id st.products = some p1
          rw [hpidc.1]
          exact hp
        · show addToTotal it.total (p1.price * q) = p1.price * (it.qty + q)
          unfold addToTotal
          rw [hpt1]
          ring
      · rw [show List.lookup i (updateA st.cartItems iid
            { it with qty := it.qty + q, total := addToTotal it.total (prod.price * q) })
            = List.lookup i st.cartItems from lookup_updateA_ne _ _ hii] at hit0
        exact hpt i hi it0 hit0

/-- AddItem creating a fresh line item preserves the cart invariant. -/
theorem WF_new_branch (st : State) (pid cid : Nat) (q : Int)
    (cart : Cart) (prod : Product)
    (hwf : WF st cid) (hq : 0 < q)
    (hc : List.lookup cid st.carts = some cart)
    (hp : List.lookup pid st.products = some prod)
    (hfi : findCartItems st pid cid = []) :
    WF { st with
          cartItems := st.cartItems ++
            [(st.nextId, { product_id := pid, cart_id := cid, qty := q,
                           total := addToTotal 0 (prod.price * q) })]
          carts := updateA st.carts cid
            { cart with items := cart.items ++ [st.nextId],
                        total := addToTotal cart.total (prod.price * q) }
          nextId := st.nextId + 1 } cid := by
  obtain ⟨⟨hk1, hk2, hb1, hb2, hb3⟩, hcart⟩ := hwf
  obtain ⟨hnd, hresv, hstore, htot, hpt⟩ := hcart cart hc
  have hnn : List.lookup st.nextId st.cartItems = none :=
    lookup_eq_none_of_bound hb1 (le_refl _)
  have hknotin : st.nextId ∉ keys st.cartItems := by
    intro hmm
    obtain ⟨x, hx1, hx2⟩ := List.mem_map.mp hmm
    have := hb1 x hx1
    omega
  have hitems_sub : ∀ i ∈ cart.items, i < st.nextId := by
    intro i hi
    obtain ⟨it0, hit0, _⟩ := hresv i hi
    exact hb1 (i, it0) (mem_of_lookup_eq_some hit0)
  have hlknew : List.lookup st.nextId (st.cartItems ++
      [(st.nextId, ({ product_id := pid, cart_id := cid, qty := q,
                      total := addToTotal 0 (prod.price * q) } : CartItem))])
      = some { product_id := pid, cart_id := cid, qty := q,
               total := addToTotal 0 (prod.price * q) } := by
    rw [lookup_append_none _ hnn, lookup_cons', if_pos rfl]
  constructor
  · refine ⟨?_, ?_, ?_, ?_, ?_⟩
    · show (List.map Prod.fst (st.cartItems ++ [(st.nextId, _)])).Nodup
      rw [List.map_append]
      refine List.Nodup.append hk1 (by simp) ?_
      intro a ha hb
      simp at hb
      subst hb
      exact hknotin ha
    · show (keys (updateA st.carts cid _)).Nodup
      rw [keys_updateA]
      exact hk2
    · intro x hx
      rcases List.mem_append.mp hx with hx1 | hx1
      · have := hb1 x hx1
        show x.1 < st.nextId + 1
        omega
      · simp at hx1
        subst hx1
        show st.nextId < st.nextId + 1
        omega
    · intro x hx
      rcases mem_updateA hx with hx1 | hx1
      · have := hb2 x hx1
        show x.1 < st.nextId + 1
        omega
      · subst hx1
        have := hb2 (cid, cart) (mem_of_lookup_eq_some hc)
        show cid < st.nextId + 1
        omega
    · intro x hx
      rcases List.mem_append.mp hx with hx1 | hx1
      · have := hb3 x hx1
        show x.2.cart_id < st.nextId + 1
        omega
      · simp at hx1
        subst hx1
        show cid < st.nextId + 1
        have := hb2 (cid, cart) (mem_of_lookup_eq_some hc)
        omega
  · intro cart0 hc0
    rw [show List.lookup cid (updateA st.carts cid
        { cart with items := cart.items ++ [st.nextId],
                    total := addToTotal cart.total (prod.price * q) })
        = some { cart with items := cart.items ++ [st.nextId],
                           total := addToTotal cart.total (prod.price * q) } from by
      rw [lookup_updateA_self, hc]; rfl] at hc0
    cases Option.some_inj.mp hc0
    refine ⟨?_, ?_, ?_, ?_, ?_⟩
    · show (cart.items ++ [st.nextId]).Nodup
      refine List.Nodup.append hnd (by simp) ?_
      intro a ha hb
      simp at hb
      subst hb
      have := hitems_sub _ ha
      omega
    · intro i hi
      rcases List.mem_append.mp hi with hi1 | hi1
      · obtain ⟨it0, hit0, hcid0⟩ := hresv i hi1
        exact ⟨it0, lookup_append_some _ hit0, hcid0⟩
      · simp at hi1
        subst hi1
        exact ⟨{ product_id := pid, cart_id := cid, qty := q,
                 total := addToTotal 0 (prod.price * q) }, hlknew, rfl⟩
    · intro x hx hxc
      rcases List.mem_append.mp hx with hx1 | hx1
      · exact List.mem_append_left _ (hstore x hx1 hxc)
      · simp at hx1
        subst hx1
        exact List.mem_append_right _ (by simp)
    · show addToTotal cart.total (prod.price * q)
          = itemTotalSum (st.cartItems ++ [(st.nextId, _)]) (cart.items ++ [st.nextId])
      rw [itemTotalSum_append_items]
      have hf : itemTotalSum (st.cartItems ++
          [(st.nextId, ({ product_id := pid, cart_id := cid, qty := q,
                          total := addToTotal 0 (prod.price * q) } : CartItem))]) cart.items
          = itemTotalSum st.cartItems cart.items := by
        apply itemTotalSum_append_frame
        intro i hi
        obtain ⟨it0, hit0, _⟩ := hresv i hi
        rw [hit0]
        rfl
      rw [hf, ← htot, hlknew]
      show cart.total + prod.price * q = cart.total + (0 + prod.price * q)
      ring
    · intro i hi it0 hit0
      rcases List.mem_append.mp hi with hi1 | hi1
      · obtain ⟨it1, hit1, _⟩ := hresv i hi1
        rw [lookup_append_some _ hit1] at hit0
        cases Option.some_inj.mp hit0
        exact hpt i hi1 _ hit1
      · simp at hi1
        subst hi1
        rw [hlknew] at hit0
        cases Option.some_inj.mp hit0
        refine ⟨prod, hp, ?_⟩
        show addToTotal 0 (prod.price * q) = prod.price * q
        unfold addToTotal
        ring

/-- A successful AddItem preserves the cart invariant. -/
theorem addItem_preserves_WF (st stA : State) (pid cid : Nat) (q : Int) (obj : CartObject)
    (hwf : WF st cid)
    (hadd : addProductToCart st pid cid q = (.ok obj, stA)) :
    WF stA cid := by
  by_cases hq : q ≤ 0
  · unfold addProductToCart at hadd
    rw [if_pos hq] at hadd
    simp at hadd
  · have hq' : 0 < q := by omega
    cases hc : List.lookup cid st.carts with
    | none =>
        unfold addProductToCart at hadd
        rw [if_neg hq] at hadd
        simp only [hc] at hadd
        simp at hadd
    | some cart =>
        cases hp : List.lookup pid st.products with
        | none =>
            unfold addProductToCart at hadd
            rw [if_neg hq] at hadd
            simp only [hc, hp] at hadd
            simp at hadd
        | some prod =>
            cases hfi : findCartItems st pid cid with
            | nil =>
                rw [addProductToCart_new st q hq' hc hp hfi] at hadd
                injection hadd with h1 h2
                subst h2
                exact WF_new_branch st pid cid q cart prod hwf hq' hc hp hfi
            | cons hd rest =>
                obtain ⟨iid, it⟩ := hd
                rw [addProductToCart_found st q hq' hc hp hfi] at hadd
                injection hadd with h1 h2
                subst h2
                exact WF_found_branch st pid cid iid q cart prod it rest hwf hq' hc hp hfi

/-- CreateCart establishes the cart invariant for the fresh cart. -/
theorem createCart_WF (st : State) (hok : StoreOK st) :
    WF (createCart st).2 st.nextId := by
  obtain ⟨hk1, hk2, hb1, hb2, hb3⟩ := hok
  constructor
  · refine ⟨hk1, ?_, ?_, ?_, ?_⟩
    · show (List.map Prod.fst (st.carts ++ [(st.nextId, _)])).Nodup
      rw [List.map_append]
      refine List.Nodup.append hk2 (by simp) ?_
      intro a ha hb
      simp at hb
      subst hb
      obtain ⟨x, hx1, hx2⟩ := List.mem_map.mp ha
      have := hb2 x hx1
      omega
    · intro x hx
      have := hb1 x hx
      show x.1 < st.nextId + 1
      omega
    · intro x hx
      rcases List.mem_append.mp hx with hx1 | hx1
      · have := hb2 x hx1
        show x.1 < st.nextId + 1
        omega
      · simp at hx1
        subst hx1
        show st.nextId < st.nextId + 1
        omega
    · intro x hx
      have := hb3 x hx
      show x.2.cart_id < st.nextId + 1
      omega
  · intro cart0 hc0
    have hcz : List.lookup st.nextId (st.carts ++
        [(st.nextId, ({ items := [], total := 0, completed := false } : Cart))])
        = some cart0 := hc0
    rw [lookup_append_none _ (lookup_eq_none_of_bound hb2 (le_refl _)),
      lookup_cons', if_pos rfl] at hcz
    cases Option.some_inj.mp hcz
    refine ⟨by simp, ?_, ?_, rfl, ?_⟩
    · intro i hi
      simp at hi
    · intro x hx hxc
      have := hb3 x hx
      rw [hxc] at this
      exact absurd this (lt_irrefl _)
    · intro i hi
      simp at hi

/-- A run of successful AddItems preserves the cart invariant. -/
theorem applyAdds_WF (ops : List (Nat × Int)) (st : State) (cid : Nat) (st' : State)
    (hwf : WF st cid) (happ : applyAdds st cid ops = some st') :
    WF st' cid := by
  induction ops generalizing st with
  | nil =>
      simp only [applyAdds, Option.some_inj] at happ
      subst happ
      exact hwf
  | cons op rest ih =>
      obtain ⟨pid, q⟩ := op
      simp only [applyAdds] at happ
      cases hadd : addProductToCart st pid cid q with
      | mk fst snd =>
          rw [hadd] at happ
          cases fst with
          | error e => simp at happ
          | ok obj =>
              exact ih snd (addItem_preserves_WF st snd pid cid q obj hwf hadd) happ

/-- C4: after any sequence of successful AddItems against a freshly created
cart, the cart's total equals the sum of price × qty over its live line
items, which equals the sum of those line items' own totals. -/
theorem addSeq_cart_total_invariant (st0 : State) (ops : List (Nat × Int)) (st' : State)
    (cart : Cart)
    (hok : StoreOK st0)
    (happ : applyAdds (createCart st0).2 (createCart st0).1.id ops = some st')
    (hc : List.lookup (createCart st0).1.id st'.carts = some cart) :
    cart.total = itemPriceQtySum st'.products st'.cartItems cart.items
    ∧ cart.total = itemTotalSum st'.cartItems cart.items := by
  have hwf : WF st' st0.nextId :=
    applyAdds_WF ops (createCart st0).2 st0.nextId st' (createCart_WF st0 hok) happ
  obtain ⟨hsok, hcart⟩ := hwf
  obtain ⟨hnd, hresv, hstore, htot, hpt⟩ := hcart cart hc
  refine ⟨?_, htot⟩
  rw [htot]
  exact itemTotalSum_eq_priceQty st'.products st'.cartItems cart.items hpt

/-- Witness for C4: create a cart, add qty 3 then qty 2 of a price-10
product; the cart total 50 equals 10 × 5 and the line item's total. -/
theorem addSeq_cart_total_invariant_witness :
    (⟨[3], 50, false⟩ : Cart).total
        = itemPriceQtySum [(1, ⟨"P", 10, 5⟩)] [(3, ⟨1, 2, 5, 50⟩)] [3]
    ∧ (⟨[3], 50, false⟩ : Cart).total = itemTotalSum [(3, ⟨1, 2, 5, 50⟩)] [3] :=
  addSeq_cart_total_invariant
    { products := [(1, ⟨"P", 10, 5⟩)], carts := [], cartItems := [], nextId := 2 }
    [(1, 3), (1, 2)]
    { products := [(1, ⟨"P", 10, 5⟩)],
      carts := [(2, ⟨[3], 50, false⟩)],
      cartItems := [(3, ⟨1, 2, 5, 50⟩)],
      nextId := 4 }
    ⟨[3], 50, false⟩
    (by decide) (by decide) (by decide)

end Shopify
